import Mathlib

/-
Verification of the DIYPCR thermal-cycler firmware (files pcrssv/pcrssv.ino and
pcrfv/pcrfv.ino) against its natural-language specification.

The firmware is shallowly embedded: the global mutable state (pin levels,
timers, cycle/phase/fault variables, temperature samples) becomes an explicit
record `PCRState`; the external world (thermocouple readings and the
start/stop-button pin level) becomes an `Env` of input streams indexed by the
number of reads performed so far; `double` temperatures become `Rat`;
`millis()`-based time is modelled by a clock that each `delay(ms)` advances by
exactly `ms` (delays are the only suspension points of the firmware, per the
spec's concurrency section).  Unbounded `while` loops take a fuel parameter and
return `none` when the fuel is exhausted before the loop exits, so every
`some`-result corresponds to a real terminating execution of the C code.

Observable actions (actuator writes, delays, phase assignments, emitted log
records, hold-phase entries) are accumulated in an event trace inside the
state; the trace is pure instrumentation and drives no control decision.
-/

/-- Input streams of the environment: the n-th thermocouple reading and the
n-th sampled level of the start/stop pin (`true` = HIGH, i.e. not pressed,
since the input is pulled up and the button is active low). -/
structure Env where
  temps : Nat → ℚ
  pins : Nat → Bool

/-- Observable events of a run, recorded in program order. -/
inductive Ev where
  | heater (lvl : Bool)
  | fanOut (lvl : Bool)
  | timeDelay (ms : Nat)
  | phase (p : Nat)
  | holdStart (cycle : Nat) (phaseIdx : Nat) (dur : Nat)
  | emitRec (forced : Bool) (cycle : Nat) (phaseIdx : Nat) (fault : Char)
deriving DecidableEq, Repr

/-- The firmware's global mutable state, plus the read indices into the input
streams and the accumulated event trace. -/
structure PCRState where
  heatPin : Bool := false
  fanPin : Bool := false
  prevInButton : Bool := true
  clock : Nat := 0
  startCycleTime : Nat := 0
  startPhaseTime : Nat := 0
  timeCounter : Nat := 0
  currCycle : Nat := 0
  currPhase : Nat := 0
  currTemp : ℚ := 0
  prevTemp : ℚ := 0
  faultCode : Char := '0'
  readIdx : Nat := 0
  pinIdx : Nat := 0
  events : List Ev := []
deriving DecidableEq, Repr

instance : Inhabited PCRState := ⟨{}⟩

/- Configuration constants of pcrssv.ino (operative parameter set). -/

def NUM_CYCLES : Nat := 32
def DENATURE_TEMP : ℚ := 94
def ANNEALING_TEMP : ℚ := 60
def EXTENSION_TEMP : ℚ := 72
def FAN_THRESHOLD_TEMP : ℚ := 3/4
def SETPOINT_THRESHOLD_TEMP : ℚ := 1/2
def STABILITY_THRESHOLD_TEMP : ℚ := 5/4
def APPROACH_THRESHOLD_TEMP : ℚ := 2
def MAX_PULSE_DURATION : ℚ := 650
def PULSE_DURATION_MULT : ℚ := 600
def MIN_PULSE_DURATION : ℚ := 80
def OVERHEAT_TEST : Nat := 30
def OVERHEAT_TIME : Nat := 250
def DENATURE_TIME : Nat := 33000
def ANNEALING_TIME : Nat := 33000
def EXTENSION_TIME : Nat := 35000
def INITIAL_DENATURE_TIME : Nat := 300000
def FINAL_EXTENSION_TIME : Nat := 600000
def COOL_SAMPLE_TIME : Nat := 300
def HOLD_PULSE_DURATION : Nat := 210
def HOLD_PAUSE_DURATION : Nat := 90
def ROOM_TEMP : ℚ := 18
def MAX_ALLOWED_TEMP : ℚ := 100
def MAX_HEAT_INCREASE : ℚ := 5/2
def MAX_ALLOWED_TEMP_TIME : Nat := 1000
def MAX_HEAT_INCREASE_TIME : Nat := 1000

/- Constants of pcrfv.ino (operative set) that differ from pcrssv.ino. -/

def APPROACH_THRESHOLD_TEMP_FV : ℚ := 1
def HOLD_PULSE_DURATION_FV : Nat := 90
def HOLD_PAUSE_DURATION_FV : Nat := 210

/- Phase encodings (the #define IDLE .. FAULT block). -/

def IDLE : Nat := 0
def HEATING : Nat := 1
def COOLING : Nat := 2
def DENATURATION : Nat := 3
def ANNEALING : Nat := 4
def EXTENSION : Nat := 5
def FAULT : Nat := 6

/- Primitive operations of the embedding. -/

/-- Append an event to the trace. -/
def emitEv (e : Ev) (s : PCRState) : PCRState := { s with events := s.events ++ [e] }

/-- digitalWrite(HEAT_PIN, b). -/
def heaterWrite (b : Bool) (s : PCRState) : PCRState :=
  emitEv (.heater b) { s with heatPin := b }

/-- digitalWrite(FAN_PIN, b). -/
def fanWrite (b : Bool) (s : PCRState) : PCRState :=
  emitEv (.fanOut b) { s with fanPin := b }

/-- delay(ms): the clock advances by exactly ms. -/
def delayMs (ms : Nat) (s : PCRState) : PCRState :=
  emitEv (.timeDelay ms) { s with clock := s.clock + ms }

/-- thermocouple.readCelsius(): yields the next reading of the stream. -/
def readCelsius (env : Env) (s : PCRState) : ℚ × PCRState :=
  (env.temps s.readIdx, { s with readIdx := s.readIdx + 1 })

/-- buttonPressed(): digitalRead of the start/stop pin and falling-edge
detection against prevInButton (LOW = `false`). -/
def buttonPressed (env : Env) (s : PCRState) : Bool × PCRState :=
  let curr := env.pins s.pinIdx
  ((decide (curr ≠ s.prevInButton) && !curr),
   { s with prevInButton := curr, pinIdx := s.pinIdx + 1 })

/-- Assignment to currPhase (recorded in the trace). -/
def phaseSet (p : Nat) (s : PCRState) : PCRState :=
  emitEv (.phase p) { s with currPhase := p }

/-- Assignment to faultCode. -/
def setFault (c : Char) (s : PCRState) : PCRState := { s with faultCode := c }

/-- The integer whole-seconds value ts = (millis() - startCycleTime) / 1000
computed at the top of log(). -/
def logSecs (s : PCRState) : Nat := (s.clock - s.startCycleTime) / 1000

/-- log(force): emits one CSV record when the whole-second counter advanced or
the call is forced, and then updates timeCounter; otherwise does nothing.
Only the emission decision and the recorded (cycle, phase, fault) fields are
modelled; the textual HH:MM:SS formatting has no behavioural content. -/
def logCall (force : Bool) (s : PCRState) : PCRState :=
  if logSecs s > s.timeCounter || force then
    emitEv (.emitRec force s.currCycle s.currPhase s.faultCode)
      { s with timeCounter := logSecs s }
  else s

/-- C-style truncation toward zero of a rational, as in the implicit
double-to-int conversion of pulseDuration. -/
def truncToInt (q : ℚ) : ℤ := Int.sign q.num * (q.num.natAbs / q.den : ℕ)

/-- int pulseDuration = min(MAX_PULSE_DURATION,
((PULSE_DURATION_MULT * (setpoint - currTemp)) + MIN_PULSE_DURATION)),
with the Arduino min macro comparing in double and the result truncated
to int by the assignment. -/
def pulseDuration (setpoint currTemp : ℚ) : ℤ :=
  truncToInt (min MAX_PULSE_DURATION
    (PULSE_DURATION_MULT * (setpoint - currTemp) + MIN_PULSE_DURATION))

/-- The two-line resample pattern currTemp = read(); log(); that every
regulation loop of the source repeats, applied to a state Z. -/
def sampleLog (env : Env) (Z : PCRState) : PCRState :=
  logCall false { (readCelsius env Z).2 with currTemp := (readCelsius env Z).1 }

/- heatUp (pcrssv.ino lines 264-347) and its inner safety loops. -/

/-- The approach-damping do-while inside heatUp: prevTemp = currTemp;
delay(OVERHEAT_TIME); resample; log; repeat while currTemp > prevTemp. -/
def dampLoop (env : Env) : Nat → PCRState → Option PCRState
  | 0, _ => none
  | f+1, s =>
    let s2 := sampleLog env (delayMs OVERHEAT_TIME { s with prevTemp := s.currTemp })
    if s2.currTemp > s2.prevTemp then dampLoop env f s2 else some s2

/-- The runaway-slope wait loop inside heatUp: while
(currTemp - prevTemp) >= MAX_HEAT_INCREASE, update prevTemp, wait, resample. -/
def slopeLoop (env : Env) : Nat → PCRState → Option PCRState
  | 0, s => if s.currTemp - s.prevTemp ≥ MAX_HEAT_INCREASE then none else some s
  | f+1, s =>
    if s.currTemp - s.prevTemp ≥ MAX_HEAT_INCREASE then
      slopeLoop env f (sampleLog env (delayMs MAX_HEAT_INCREASE_TIME { s with prevTemp := s.currTemp }))
    else some s

/-- The absolute-ceiling wait loop inside heatUp: while
currTemp >= MAX_ALLOWED_TEMP, wait and resample. -/
def ceilLoop (env : Env) : Nat → PCRState → Option PCRState
  | 0, s => if s.currTemp ≥ MAX_ALLOWED_TEMP then none else some s
  | f+1, s =>
    if s.currTemp ≥ MAX_ALLOWED_TEMP then
      ceilLoop env f (sampleLog env (delayMs MAX_ALLOWED_TEMP_TIME s))
    else some s

/-- The main while (currTemp < setpoint) rise-ramp loop of heatUp in
pcrssv.ino, with pcrssv's approach condition (the OVERHEAT_TEST alternative is
commented out in this variant).  The first result component is ris. -/
def heatLoop (env : Env) (sp : ℚ) (hif : Nat) : Nat → Nat → PCRState → Option (Bool × PCRState)
  | 0, _, s => if s.currTemp < sp then none else some (false, s)
  | f+1, curIteration, s =>
    if s.currTemp < sp then
      let pb := buttonPressed env s
      if pb.1 then some (false, setFault '1' pb.2)
      else
        let curIter := curIteration + 1
        let pd := (pulseDuration sp pb.2.currTemp).toNat
        let s2 := heaterWrite false (sampleLog env (delayMs pd (heaterWrite true pb.2)))
        if s2.currTemp ≥ sp then some (true, setFault '0' s2)
        else
          match (if sp - s2.currTemp < APPROACH_THRESHOLD_TEMP
                 then dampLoop env hif s2 else some s2) with
          | none => none
          | some s3 =>
            if s3.currTemp ≥ sp then some (true, setFault '0' s3)
            else
              match (if curIter % 2 = 0 then
                       (if s3.currTemp < s3.prevTemp - STABILITY_THRESHOLD_TEMP
                        then Sum.inl (setFault '4' s3) else Sum.inr s3)
                     else Sum.inr { s3 with prevTemp := s3.currTemp }) with
              | Sum.inl sF => some (false, sF)
              | Sum.inr s4 =>
                match slopeLoop env hif s4 with
                | none => none
                | some s5 =>
                  match ceilLoop env hif s5 with
                  | none => none
                  | some s6 => heatLoop env sp hif f curIter s6
    else some (false, s)

/-- heatUp(setpoint) of pcrssv.ino: fan off, start the phase timer, take the
entry sample, log, then the sensor-failure and entry-overshoot prechecks, and
the rise ramp otherwise.  hf fuels the main loop, hif the inner wait loops. -/
def heatUp (env : Env) (sp : ℚ) (hf hif : Nat) (s : PCRState) : Option (Bool × PCRState) :=
  let s1 := { fanWrite false s with startPhaseTime := s.clock }
  let r := readCelsius env s1
  let s2 := logCall false { r.2 with prevTemp := r.1, currTemp := r.1 }
  if s2.currTemp < ROOM_TEMP then some (false, setFault '2' s2)
  else if s2.currTemp > sp then some (false, setFault '3' s2)
  else heatLoop env sp hif hf 0 s2

/-- The rise-ramp loop of heatUp in pcrfv.ino (lines 376-435): identical to
pcrssv's except that the damping sub-loop is also entered every OVERHEAT_TEST
iterations and the approach threshold is pcrfv's. -/
def heatLoopFV (env : Env) (sp : ℚ) (hif : Nat) : Nat → Nat → PCRState → Option (Bool × PCRState)
  | 0, _, s => if s.currTemp < sp then none else some (false, s)
  | f+1, curIteration, s =>
    if s.currTemp < sp then
      let pb := buttonPressed env s
      if pb.1 then some (false, setFault '1' pb.2)
      else
        let curIter := curIteration + 1
        let pd := (pulseDuration sp pb.2.currTemp).toNat
        let s2 := heaterWrite false (sampleLog env (delayMs pd (heaterWrite true pb.2)))
        if s2.currTemp ≥ sp then some (true, setFault '0' s2)
        else
          match (if sp - s2.currTemp < APPROACH_THRESHOLD_TEMP_FV ∨ curIter % OVERHEAT_TEST = 0
                 then dampLoop env hif s2 else some s2) with
          | none => none
          | some s3 =>
            if s3.currTemp ≥ sp then some (true, setFault '0' s3)
            else
              match (if curIter % 2 = 0 then
                       (if s3.currTemp < s3.prevTemp - STABILITY_THRESHOLD_TEMP
                        then Sum.inl (setFault '4' s3) else Sum.inr s3)
                     else Sum.inr { s3 with prevTemp := s3.currTemp }) with
              | Sum.inl sF => some (false, sF)
              | Sum.inr s4 =>
                match slopeLoop env hif s4 with
                | none => none
                | some s5 =>
                  match ceilLoop env hif s5 with
                  | none => none
                  | some s6 => heatLoopFV env sp hif f curIter s6
    else some (false, s)

/-- heatUp(setpoint) of pcrfv.ino (lines 357-438): the entry sequence and
prechecks are the same source text as pcrssv's. -/
def heatUpFV (env : Env) (sp : ℚ) (hf hif : Nat) (s : PCRState) : Option (Bool × PCRState) :=
  let s1 := { fanWrite false s with startPhaseTime := s.clock }
  let r := readCelsius env s1
  let s2 := logCall false { r.2 with prevTemp := r.1, currTemp := r.1 }
  if s2.currTemp < ROOM_TEMP then some (false, setFault '2' s2)
  else if s2.currTemp > sp then some (false, setFault '3' s2)
  else heatLoopFV env sp hif hf 0 s2

/- coolDown (pcrssv.ino lines 352-371). -/

/-- The while (currTemp > setpoint + FAN_THRESHOLD_TEMP) loop of coolDown:
fan on, wait maxTimeout, resample, log, stop-button check. -/
def coolLoop (env : Env) (sp : ℚ) (maxTimeout : Nat) : Nat → PCRState → Option (Bool × PCRState)
  | 0, s => if s.currTemp > sp + FAN_THRESHOLD_TEMP then none else some (true, s)
  | f+1, s =>
    if s.currTemp > sp + FAN_THRESHOLD_TEMP then
      let s2 := sampleLog env (delayMs maxTimeout (fanWrite true s))
      let pb := buttonPressed env s2
      if pb.1 then some (false, setFault '1' pb.2)
      else coolLoop env sp maxTimeout f pb.2
    else some (true, s)

/-- coolDown(setpoint, maxTimeout): start the phase timer, take the entry
sample, log, run the fan loop, and switch the fan off on every exit path. -/
def coolDown (env : Env) (sp : ℚ) (maxTimeout : Nat) (fuel : Nat) (s : PCRState) :
    Option (Bool × PCRState) :=
  let s1 := { s with startPhaseTime := s.clock }
  let r := readCelsius env s1
  let s2 := logCall false { r.2 with currTemp := r.1 }
  match coolLoop env sp maxTimeout fuel s2 with
  | none => none
  | some (ris, s3) => some (ris, fanWrite false s3)

/- holdConstantTemp (pcrssv.ino lines 378-414, pcrfv.ino lines 469-502). -/

/-- One iteration of the pcrssv hold loop: stop-button check (inl = break
with OperatorStop), resample, log, then heater pulse / fan pulse / dead-band
idle of HOLD_PULSE_DURATION, and the HOLD_PAUSE_DURATION pause. -/
def holdBody (env : Env) (sp : ℚ) (s : PCRState) : PCRState ⊕ PCRState :=
  let pb := buttonPressed env s
  if pb.1 then .inl (setFault '1' pb.2)
  else
    let s1 := sampleLog env pb.2
    let s2 :=
      if s1.currTemp < sp then
        heaterWrite false (delayMs HOLD_PULSE_DURATION (heaterWrite true s1))
      else if s1.currTemp > sp + SETPOINT_THRESHOLD_TEMP then
        fanWrite false (delayMs HOLD_PULSE_DURATION (fanWrite true s1))
      else delayMs HOLD_PULSE_DURATION s1
    .inr (delayMs HOLD_PAUSE_DURATION s2)

/-- One iteration of the pcrfv hold loop (lines 479-499): same structure but
with pcrfv's pulse/pause constants and no dead-band idle branch. -/
def holdBodyFV (env : Env) (sp : ℚ) (s : PCRState) : PCRState ⊕ PCRState :=
  let pb := buttonPressed env s
  if pb.1 then .inl (setFault '1' pb.2)
  else
    let s1 := sampleLog env pb.2
    let s2 :=
      if s1.currTemp < sp then
        heaterWrite false (delayMs HOLD_PULSE_DURATION_FV (heaterWrite true s1))
      else if s1.currTemp > sp + SETPOINT_THRESHOLD_TEMP then
        fanWrite false (delayMs HOLD_PULSE_DURATION_FV (fanWrite true s1))
      else s1
    .inr (delayMs HOLD_PAUSE_DURATION_FV s2)

/-- The while (holdTimeElapsed < duration) loop of pcrssv's holdConstantTemp.
holdTimeElapsed is recomputed as millis() - startPhaseTime at the end of each
iteration, so the guard reads the clock directly. -/
def holdLoop (env : Env) (duration : Nat) (sp : ℚ) : Nat → PCRState → Option (Bool × PCRState)
  | 0, s => if s.clock - s.startPhaseTime < duration then none else some (true, s)
  | f+1, s =>
    if s.clock - s.startPhaseTime < duration then
      match holdBody env sp s with
      | .inl sB => some (false, sB)
      | .inr sC => holdLoop env duration sp f sC
    else some (true, s)

/-- holdConstantTemp(duration, setpoint) of pcrssv.ino.  The holdStart trace
event records the (cycle, phase, duration) of the hold-phase entry. -/
def holdConstantTemp (env : Env) (duration : Nat) (sp : ℚ) (fuel : Nat) (s : PCRState) :
    Option (Bool × PCRState) :=
  holdLoop env duration sp fuel
    (emitEv (.holdStart s.currCycle s.currPhase duration) { s with startPhaseTime := s.clock })

/- runPCR (pcrssv.ino lines 161-259). -/

/-- The failure-handling block repeated after every phase call of runPCR:
currCycle = NUM_CYCLES; currPhase = FAULT; log(); break. -/
def failStop (s : PCRState) : PCRState :=
  logCall false (phaseSet FAULT { s with currCycle := NUM_CYCLES })

/-- The result check written after every phase call of runPCR:
if(ris==false) run the failure-handling block and break (inl), else fall
through to the continuation.  Each occurrence of that repeated source pattern
is one application of this combinator. -/
def stepThen (o : Option (Bool × PCRState))
    (k : PCRState → Option (PCRState ⊕ PCRState)) : Option (PCRState ⊕ PCRState) :=
  match o with
  | none => none
  | some (false, s1) => some (.inl (failStop s1))
  | some (true, s1) => k s1

/-- One iteration of the runPCR for-loop: the six phase steps in order, with
first-cycle denaturation and last-cycle extension duration selection.
inl = the iteration broke out of the for loop (a phase step failed);
inr = the cycle completed and the loop continues. -/
def cycleBody (env : Env) (hf hif df cf : Nat) (s : PCRState) : Option (PCRState ⊕ PCRState) :=
  stepThen (heatUp env DENATURE_TEMP hf hif (phaseSet HEATING s)) fun s1 =>
  stepThen (holdConstantTemp env
      (if (phaseSet DENATURATION s1).currCycle = 0 then INITIAL_DENATURE_TIME else DENATURE_TIME)
      DENATURE_TEMP df (phaseSet DENATURATION s1)) fun s3 =>
  stepThen (coolDown env ANNEALING_TEMP COOL_SAMPLE_TIME cf (phaseSet COOLING s3)) fun s4 =>
  stepThen (holdConstantTemp env ANNEALING_TIME ANNEALING_TEMP df (phaseSet ANNEALING s4)) fun s5 =>
  stepThen (heatUp env EXTENSION_TEMP hf hif (phaseSet HEATING s5)) fun s6 =>
  stepThen (holdConstantTemp env
      (if (phaseSet EXTENSION s6).currCycle < NUM_CYCLES - 1 then EXTENSION_TIME
       else FINAL_EXTENSION_TIME)
      EXTENSION_TEMP df (phaseSet EXTENSION s6)) fun s8 =>
  some (.inr s8)

/-- The for(currCycle = 0; currCycle < NUM_CYCLES; currCycle++) loop of
runPCR: a break (inl) leaves the loop at once; otherwise the cycle counter is
incremented and the loop continues. -/
def runCycles (env : Env) (hf hif df cf : Nat) : Nat → PCRState → Option PCRState
  | 0, s => if s.currCycle < NUM_CYCLES then none else some s
  | f+1, s =>
    if s.currCycle < NUM_CYCLES then
      match cycleBody env hf hif df cf s with
      | none => none
      | some (.inl sB) => some sB
      | some (.inr sC) => runCycles env hf hif df cf f { sC with currCycle := sC.currCycle + 1 }
    else some s

/-- The epilogue of runPCR: fan on for the open-ended cooldown, phase back to
IDLE unless the run ended in FAULT, and the forced terminal log record. -/
def pcrFinish (s : PCRState) : PCRState :=
  logCall true
    (if (fanWrite true s).currPhase ≠ FAULT then phaseSet IDLE (fanWrite true s)
     else fanWrite true s)

/-- runPCR(): reset the run timers and fault code, run the cycle loop, then
the epilogue. -/
def runPCR (env : Env) (hf hif df cf cycleFuel : Nat) (s : PCRState) : Option PCRState :=
  match runCycles env hf hif df cf cycleFuel
      { s with startCycleTime := s.clock, timeCounter := 0, faultCode := '0', currCycle := 0 } with
  | none => none
  | some s1 => some (pcrFinish s1)

/-- The entry sequence of coolDown before its loop (phase timer, entry
sample, log), named for use in the proofs; definitionally equal to the
corresponding prefix of coolDown. -/
def coolEntry (env : Env) (s : PCRState) : PCRState :=
  logCall false { (readCelsius env { s with startPhaseTime := s.clock }).2 with
    currTemp := (readCelsius env { s with startPhaseTime := s.clock }).1 }

/-- The entry sequence of heatUp before its prechecks (fan off, phase timer,
entry sample into both prevTemp and currTemp, log), named for use in the
proofs; definitionally equal to the corresponding prefix of heatUp. -/
def heatEntry (env : Env) (s : PCRState) : PCRState :=
  logCall false
    { (readCelsius env { fanWrite false s with startPhaseTime := s.clock }).2 with
      prevTemp := (readCelsius env { fanWrite false s with startPhaseTime := s.clock }).1,
      currTemp := (readCelsius env { fanWrite false s with startPhaseTime := s.clock }).1 }

/- Helper definitions used to state the claims. -/

/-- Actuator (heater/fan) events of a trace. -/
def actEvs (l : List Ev) : List Ev :=
  l.filter fun e => match e with | .heater _ => true | .fanOut _ => true | _ => false

/-- Delay events of a trace. -/
def delayEvs (l : List Ev) : List Ev :=
  l.filter fun e => match e with | .timeDelay _ => true | _ => false

/-- Whether an event is the start of a regulation phase (Heating..Extension). -/
def isRegPhase (e : Ev) : Bool :=
  match e with | .phase p => decide (1 ≤ p ∧ p ≤ 5) | _ => false

/-- The state right after setup(): all outputs low, phase IDLE, pull-up HIGH. -/
def s0 : PCRState := {}

/-- Environment with a constant temperature reading and the start/stop button
never pressed (pin held HIGH by the pull-up). -/
def envConst (t : ℚ) : Env := ⟨fun _ => t, fun _ => true⟩

/-- State component of a regulator result, for concrete instantiations. -/
def resSnd (o : Option (Bool × PCRState)) : PCRState :=
  match o with | some (_, s) => s | none => default

/-- Payload of a terminating runPCR result, for concrete instantiations. -/
def resState (o : Option PCRState) : PCRState :=
  match o with | some s => s | none => default

/-- Payload of a break result of cycleBody, for concrete instantiations. -/
def inlState (o : Option (PCRState ⊕ PCRState)) : PCRState :=
  match o with | some (.inl r) => r | _ => default

/-- The sample-and-log prefix of one hold-loop iteration after the button
check: resample into currTemp, then log; shared source text of both hold
variants, named for the proofs. -/
def holdSample (env : Env) (s : PCRState) : PCRState :=
  sampleLog env (buttonPressed env s).2

/-- Trace events a regulator may append while its caller's (cycle, phase,
fault) triple stays fixed: no phase entries, no hold entries, and every log
record carries exactly that triple. -/
def quietTail (c p : Nat) (fc : Char) (e : Ev) : Prop :=
  match e with
  | .phase _ => False
  | .holdStart _ _ _ => False
  | .emitRec _ c2 p2 fc2 => c2 = c ∧ p2 = p ∧ fc2 = fc
  | _ => True

/-- Constraint on the events one runPCR cycle iteration at cycle index i may
append: hold entries belong to cycle i and follow the first/last-cycle
duration rules, and log records outside the Fault phase carry fault code
None. -/
def cycleOK (i : Nat) (e : Ev) : Prop :=
  match e with
  | .holdStart c p d => c = i ∧
      (p = DENATURATION → d = if i = 0 then INITIAL_DENATURE_TIME else DENATURE_TIME) ∧
      (p = EXTENSION → d = if i < NUM_CYCLES - 1 then EXTENSION_TIME else FINAL_EXTENSION_TIME)
  | .emitRec _ _ p2 fc2 => p2 ≠ FAULT → fc2 = '0'
  | _ => True

/-- Constraint on the events of a whole run: hold entries belong to a valid
cycle and follow the first/last-cycle duration rules, and log records outside
the Fault phase carry fault code None. -/
def runOK (e : Ev) : Prop :=
  match e with
  | .holdStart c p d => c < NUM_CYCLES ∧
      (p = DENATURATION → d = if c = 0 then INITIAL_DENATURE_TIME else DENATURE_TIME) ∧
      (p = EXTENSION → d = if c < NUM_CYCLES - 1 then EXTENSION_TIME else FINAL_EXTENSION_TIME)
  | .emitRec _ _ p2 fc2 => p2 ≠ FAULT → fc2 = '0'
  | _ => True

/- Simp lemmas: field views of the primitives. -/

@[simp] lemma emitEv_heatPin (e : Ev) (s : PCRState) : (emitEv e s).heatPin = s.heatPin := rfl
@[simp] lemma emitEv_fanPin (e : Ev) (s : PCRState) : (emitEv e s).fanPin = s.fanPin := rfl
@[simp] lemma emitEv_currCycle (e : Ev) (s : PCRState) : (emitEv e s).currCycle = s.currCycle := rfl
@[simp] lemma emitEv_currPhase (e : Ev) (s : PCRState) : (emitEv e s).currPhase = s.currPhase := rfl
@[simp] lemma emitEv_faultCode (e : Ev) (s : PCRState) : (emitEv e s).faultCode = s.faultCode := rfl
@[simp] lemma emitEv_events (e : Ev) (s : PCRState) : (emitEv e s).events = s.events ++ [e] := rfl
@[simp] lemma emitEv_readIdx (e : Ev) (s : PCRState) : (emitEv e s).readIdx = s.readIdx := rfl
@[simp] lemma emitEv_pinIdx (e : Ev) (s : PCRState) : (emitEv e s).pinIdx = s.pinIdx := rfl

@[simp] lemma logCall_currCycle (f : Bool) (s : PCRState) :
    (logCall f s).currCycle = s.currCycle := by
  unfold logCall; split <;> rfl

@[simp] lemma logCall_currPhase (f : Bool) (s : PCRState) :
    (logCall f s).currPhase = s.currPhase := by
  unfold logCall; split <;> rfl

@[simp] lemma logCall_faultCode (f : Bool) (s : PCRState) :
    (logCall f s).faultCode = s.faultCode := by
  unfold logCall; split <;> rfl

@[simp] lemma logCall_heatPin (f : Bool) (s : PCRState) :
    (logCall f s).heatPin = s.heatPin := by
  unfold logCall; split <;> rfl

@[simp] lemma logCall_fanPin (f : Bool) (s : PCRState) :
    (logCall f s).fanPin = s.fanPin := by
  unfold logCall; split <;> rfl

@[simp] lemma logCall_readIdx (f : Bool) (s : PCRState) :
    (logCall f s).readIdx = s.readIdx := by
  unfold logCall; split <;> rfl

@[simp] lemma logCall_pinIdx (f : Bool) (s : PCRState) :
    (logCall f s).pinIdx = s.pinIdx := by
  unfold logCall; split <;> rfl

@[simp] lemma logCall_currTemp (f : Bool) (s : PCRState) :
    (logCall f s).currTemp = s.currTemp := by
  unfold logCall; split <;> rfl

@[simp] lemma logCall_prevTemp (f : Bool) (s : PCRState) :
    (logCall f s).prevTemp = s.prevTemp := by
  unfold logCall; split <;> rfl

@[simp] lemma logCall_clock (f : Bool) (s : PCRState) :
    (logCall f s).clock = s.clock := by
  unfold logCall; split <;> rfl

lemma logCall_events (f : Bool) (s : PCRState) :
    (logCall f s).events = s.events ++
      (if logSecs s > s.timeCounter || f then
        [Ev.emitRec f s.currCycle s.currPhase s.faultCode] else []) := by
  unfold logCall
  split <;> simp_all [emitEv]


@[simp] lemma heaterWrite_eq (b : Bool) (s : PCRState) :
    heaterWrite b s = { s with heatPin := b, events := s.events ++ [Ev.heater b] } := rfl

@[simp] lemma fanWrite_eq (b : Bool) (s : PCRState) :
    fanWrite b s = { s with fanPin := b, events := s.events ++ [Ev.fanOut b] } := rfl

@[simp] lemma delayMs_eq (ms : Nat) (s : PCRState) :
    delayMs ms s = { s with clock := s.clock + ms, events := s.events ++ [Ev.timeDelay ms] } := rfl

@[simp] lemma phaseSet_eq (p : Nat) (s : PCRState) :
    phaseSet p s = { s with currPhase := p, events := s.events ++ [Ev.phase p] } := rfl

@[simp] lemma setFault_eq (c : Char) (s : PCRState) :
    setFault c s = { s with faultCode := c } := rfl

@[simp] lemma readCelsius_eq (env : Env) (s : PCRState) :
    readCelsius env s = (env.temps s.readIdx, { s with readIdx := s.readIdx + 1 }) := rfl

@[simp] lemma buttonPressed_eq (env : Env) (s : PCRState) :
    buttonPressed env s =
      ((decide (env.pins s.pinIdx ≠ s.prevInButton) && !(env.pins s.pinIdx)),
       { s with prevInButton := env.pins s.pinIdx, pinIdx := s.pinIdx + 1 }) := rfl

@[simp] lemma logCall_startCycleTime (f : Bool) (s : PCRState) :
    (logCall f s).startCycleTime = s.startCycleTime := by
  unfold logCall; split <;> rfl

@[simp] lemma logCall_startPhaseTime (f : Bool) (s : PCRState) :
    (logCall f s).startPhaseTime = s.startPhaseTime := by
  unfold logCall; split <;> rfl

@[simp] lemma logCall_prevInButton (f : Bool) (s : PCRState) :
    (logCall f s).prevInButton = s.prevInButton := by
  unfold logCall; split <;> rfl

/- Arithmetic facts about the truncation and the pulse formula. -/

lemma truncToInt_eq_floor (q : ℚ) (hq : 0 ≤ q) : truncToInt q = ⌊q⌋ := by
  rcases eq_or_lt_of_le hq with h0 | hpos
  · rw [← h0]; simp [truncToInt]
  · have hnum : 0 < q.num := Rat.num_pos.mpr hpos
    rw [Rat.floor_def]
    unfold truncToInt
    rw [Int.sign_eq_one_iff_pos.mpr hnum, one_mul]
    calc ((q.num.natAbs / q.den : ℕ) : ℤ)
        = (q.num.natAbs : ℤ) / (q.den : ℤ) := Int.natCast_div _ _
      _ = q.num / (q.den : ℤ) := by rw [Int.natAbs_of_nonneg hnum.le]

/-- C7: in every rise-ramp iteration whose loop precondition T < S holds, the
computed heater pulse duration lies within [MIN_PULSE_DURATION,
MAX_PULSE_DURATION] = [80, 650] ms, and it is monotonically non-increasing as
the remaining gap S - T shrinks: for two samples T1 <= T2 < S the pulse
computed at T2 is at most the pulse computed at T1. -/
theorem pulseDuration_bounds_and_mono (S T1 T2 : ℚ) (h12 : T1 ≤ T2) (h2 : T2 < S) :
    (80 ≤ pulseDuration S T2 ∧ pulseDuration S T2 ≤ 650) ∧
    pulseDuration S T2 ≤ pulseDuration S T1 := by
  have gap2 : (0:ℚ) ≤ S - T2 := by linarith
  have gap1 : (0:ℚ) ≤ S - T1 := by linarith
  have h80 : (80:ℚ) ≤ min (650:ℚ) (600 * (S - T2) + 80) :=
    le_min (by norm_num) (by nlinarith)
  have h80' : (80:ℚ) ≤ min (650:ℚ) (600 * (S - T1) + 80) :=
    le_min (by norm_num) (by nlinarith)
  have hmono : min (650:ℚ) (600 * (S - T2) + 80) ≤ min (650:ℚ) (600 * (S - T1) + 80) :=
    min_le_min le_rfl (by nlinarith)
  have hle : min (650:ℚ) (600 * (S - T2) + 80) ≤ 650 := min_le_left _ _
  simp only [pulseDuration, MAX_PULSE_DURATION, PULSE_DURATION_MULT, MIN_PULSE_DURATION]
  rw [truncToInt_eq_floor _ (le_trans (by norm_num) h80),
      truncToInt_eq_floor _ (le_trans (by norm_num) h80')]
  refine ⟨⟨?_, ?_⟩, ?_⟩
  · exact Int.le_floor.mpr (by push_cast; linarith)
  · calc ⌊min (650:ℚ) (600 * (S - T2) + 80)⌋ ≤ ⌊(650:ℚ)⌋ := Int.floor_mono hle
      _ = 650 := by norm_num
  · exact Int.floor_mono hmono

/-- Witness for C7 at the concrete gap pair T1 = 20 <= T2 = 90 < S = 94. -/
theorem pulseDuration_bounds_and_mono_witness :
    (20:ℚ) ≤ 90 ∧ (90:ℚ) < 94 ∧
    ((80 ≤ pulseDuration 94 90 ∧ pulseDuration 94 90 ≤ 650) ∧
     pulseDuration 94 90 ≤ pulseDuration 94 20) :=
  ⟨by norm_num, by norm_num,
   pulseDuration_bounds_and_mono 94 20 90 (by norm_num) (by norm_num)⟩

/-- C9: a call to log() emits a record exactly when the whole-second counter
of total run time has advanced past the value stored at the last emission or
the call is forced; any emission (forced ones included) stores the current
whole-second value, so an unforced call within the same whole second after a
forced emission emits nothing. -/
theorem logCall_rate_limit (f : Bool) (s : PCRState) (d : Nat)
    (hsame : (s.clock + d - s.startCycleTime) / 1000 = logSecs s) :
    ((logCall f s).events ≠ s.events ↔ (logSecs s > s.timeCounter ∨ f = true)) ∧
    ((logCall f s).timeCounter =
      if logSecs s > s.timeCounter ∨ f = true then logSecs s else s.timeCounter) ∧
    (logCall false { logCall true s with clock := s.clock + d }).events =
      (logCall true s).events := by
  refine ⟨?_, ?_, ?_⟩
  · by_cases hc : logSecs s > s.timeCounter ∨ f = true
    · simp only [logCall, emitEv_events]
      rw [if_pos (by simpa using hc)]
      simpa using hc
    · simp only [logCall]
      rw [if_neg (by simpa using hc)]
      simp [hc]
  · by_cases hc : logSecs s > s.timeCounter ∨ f = true
    · simp only [logCall]
      rw [if_pos (by simpa using hc), if_pos hc]
      rfl
    · simp only [logCall]
      rw [if_neg (by simpa using hc), if_neg hc]
  · have hno : ∀ s' : PCRState, logSecs s' ≤ s'.timeCounter → logCall false s' = s' := by
      intro s' h
      simp [logCall, Nat.not_lt.mpr h]
    have ht : (logCall true s).timeCounter = logSecs s := by simp [logCall, emitEv]
    have harg : logSecs { logCall true s with clock := s.clock + d } ≤
        ({ logCall true s with clock := s.clock + d } : PCRState).timeCounter := by
      show (s.clock + d - (logCall true s).startCycleTime) / 1000 ≤ (logCall true s).timeCounter
      rw [logCall_startCycleTime, ht, hsame]
    rw [hno _ harg]

/-- Witness for C9: a state 0.5 s into the run, unforced call, and a 300 ms
step that stays within the same whole second. -/
theorem logCall_rate_limit_witness :
    ((({ clock := 500 } : PCRState).clock + 300 -
        ({ clock := 500 } : PCRState).startCycleTime) / 1000 =
      logSecs { clock := 500 }) ∧
    (((logCall false { clock := 500 }).events ≠ ({ clock := 500 } : PCRState).events ↔
        (logSecs { clock := 500 } > ({ clock := 500 } : PCRState).timeCounter ∨ false = true)) ∧
     ((logCall false { clock := 500 }).timeCounter =
        if logSecs { clock := 500 } > ({ clock := 500 } : PCRState).timeCounter ∨ false = true
        then logSecs { clock := 500 } else ({ clock := 500 } : PCRState).timeCounter) ∧
     (logCall false { logCall true { clock := 500 } with
        clock := ({ clock := 500 } : PCRState).clock + 300 }).events =
       (logCall true { clock := 500 }).events) :=
  ⟨by decide, logCall_rate_limit false { clock := 500 } 300 (by decide)⟩


lemma coolDown_eq (env : Env) (sp : ℚ) (mt fuel : Nat) (s : PCRState) :
    coolDown env sp mt fuel s =
      match coolLoop env sp mt fuel (coolEntry env s) with
      | none => none
      | some (ris, s3) => some (ris, fanWrite false s3) := rfl

lemma heatUp_eq (env : Env) (sp : ℚ) (hf hif : Nat) (s : PCRState) :
    heatUp env sp hf hif s =
      (if (heatEntry env s).currTemp < ROOM_TEMP then some (false, setFault '2' (heatEntry env s))
       else if (heatEntry env s).currTemp > sp then some (false, setFault '3' (heatEntry env s))
       else heatLoop env sp hif hf 0 (heatEntry env s)) := rfl

lemma heatUpFV_eq (env : Env) (sp : ℚ) (hf hif : Nat) (s : PCRState) :
    heatUpFV env sp hf hif s =
      (if (heatEntry env s).currTemp < ROOM_TEMP then some (false, setFault '2' (heatEntry env s))
       else if (heatEntry env s).currTemp > sp then some (false, setFault '3' (heatEntry env s))
       else heatLoopFV env sp hif hf 0 (heatEntry env s)) := rfl

@[simp] lemma coolEntry_currTemp (env : Env) (s : PCRState) :
    (coolEntry env s).currTemp = env.temps s.readIdx := by simp [coolEntry]

@[simp] lemma coolEntry_faultCode (env : Env) (s : PCRState) :
    (coolEntry env s).faultCode = s.faultCode := by simp [coolEntry]

@[simp] lemma coolEntry_pinIdx (env : Env) (s : PCRState) :
    (coolEntry env s).pinIdx = s.pinIdx := by simp [coolEntry]

lemma coolEntry_events (env : Env) (s : PCRState) :
    (coolEntry env s).events = s.events ∨
    (coolEntry env s).events =
      s.events ++ [Ev.emitRec false s.currCycle s.currPhase s.faultCode] := by
  unfold coolEntry logCall
  split
  · right; simp [emitEv]
  · left; rfl

@[simp] lemma heatEntry_currTemp (env : Env) (s : PCRState) :
    (heatEntry env s).currTemp = env.temps s.readIdx := by simp [heatEntry]

@[simp] lemma heatEntry_prevTemp (env : Env) (s : PCRState) :
    (heatEntry env s).prevTemp = env.temps s.readIdx := by simp [heatEntry]

@[simp] lemma heatEntry_faultCode (env : Env) (s : PCRState) :
    (heatEntry env s).faultCode = s.faultCode := by simp [heatEntry]

@[simp] lemma heatEntry_currPhase (env : Env) (s : PCRState) :
    (heatEntry env s).currPhase = s.currPhase := by simp [heatEntry]

@[simp] lemma heatEntry_currCycle (env : Env) (s : PCRState) :
    (heatEntry env s).currCycle = s.currCycle := by simp [heatEntry]

lemma heatEntry_events (env : Env) (s : PCRState) :
    (heatEntry env s).events = s.events ++ [Ev.fanOut false] ∨
    (heatEntry env s).events = s.events ++
      [Ev.fanOut false, Ev.emitRec false s.currCycle s.currPhase s.faultCode] := by
  unfold heatEntry logCall
  split
  · right; simp [emitEv]
  · left; simp [emitEv]

/-- C10: if the entry sample of coolDown is already at or below
setpoint + FAN_THRESHOLD_TEMP, coolDown returns success immediately with the
fault code unchanged, performs no stop-button poll (the pin index is
untouched), and its only actuator write is the final fan-off; moreover the
fan output is off in the final state of every terminating coolDown call,
success or failure. -/
theorem coolDown_entry_skip_and_fan_off (env : Env) (sp : ℚ) (mt fuel : Nat) (s : PCRState) :
    (∀ b s1, coolDown env sp mt fuel s = some (b, s1) → s1.fanPin = false) ∧
    (env.temps s.readIdx ≤ sp + FAN_THRESHOLD_TEMP →
      ∃ s1, coolDown env sp mt fuel s = some (true, s1) ∧
        s1.faultCode = s.faultCode ∧ s1.pinIdx = s.pinIdx ∧
        ∃ tl, s1.events = s.events ++ tl ∧ actEvs tl = [Ev.fanOut false]) := by
  constructor
  · intro b s1 h
    rw [coolDown_eq] at h
    rcases hc : coolLoop env sp mt fuel (coolEntry env s) with _ | ⟨r, s3⟩
    · rw [hc] at h; simp at h
    · rw [hc] at h
      simp only [Option.some.injEq, Prod.mk.injEq] at h
      rw [← h.2]
      simp
  · intro hcool
    rw [coolDown_eq]
    have hguard : ¬ (sp + FAN_THRESHOLD_TEMP < env.temps s.readIdx) := not_lt.mpr hcool
    have hloop : coolLoop env sp mt fuel (coolEntry env s) =
        some (true, coolEntry env s) := by
      cases fuel <;> simp [coolLoop, hguard]
    rw [hloop]
    refine ⟨_, rfl, by simp, by simp, ?_⟩
    rcases coolEntry_events env s with he | he
    · exact ⟨[Ev.fanOut false], by simp [he], by simp [actEvs]⟩
    · exact ⟨[Ev.emitRec false s.currCycle s.currPhase s.faultCode, Ev.fanOut false],
        by simp [he], by simp [actEvs]⟩

/-- Witness for C10 at setpoint 60 with a constant 60-degree reading (the
entry sample 60 is at or below 60 + 0.75). -/
theorem coolDown_entry_skip_and_fan_off_witness :
    ((envConst 60).temps s0.readIdx ≤ 60 + FAN_THRESHOLD_TEMP) ∧
    ((∀ b s1, coolDown (envConst 60) 60 COOL_SAMPLE_TIME 3 s0 = some (b, s1) →
        s1.fanPin = false) ∧
     ((envConst 60).temps s0.readIdx ≤ 60 + FAN_THRESHOLD_TEMP →
       ∃ s1, coolDown (envConst 60) 60 COOL_SAMPLE_TIME 3 s0 = some (true, s1) ∧
         s1.faultCode = s0.faultCode ∧ s1.pinIdx = s0.pinIdx ∧
         ∃ tl, s1.events = s0.events ++ tl ∧ actEvs tl = [Ev.fanOut false])) :=
  ⟨by norm_num [envConst, FAN_THRESHOLD_TEMP, s0],
   coolDown_entry_skip_and_fan_off (envConst 60) 60 COOL_SAMPLE_TIME 3 s0⟩

/-- C1: if the entry sample of heatUp (RiseTo) is below the room-temperature
floor, heatUp fails with fault code 2 (SensorFailure) and the heater is never
commanded on during the call, in both the pcrssv and the pcrfv variant. -/
theorem heatUp_sensor_failure (env : Env) (sp : ℚ) (hf hif : Nat) (s : PCRState)
    (hcold : env.temps s.readIdx < ROOM_TEMP) :
    (∃ s1, heatUp env sp hf hif s = some (false, s1) ∧ s1.faultCode = '2' ∧
      ∃ tl, s1.events = s.events ++ tl ∧ ∀ e ∈ tl, e ≠ Ev.heater true) ∧
    (∃ s1, heatUpFV env sp hf hif s = some (false, s1) ∧ s1.faultCode = '2' ∧
      ∃ tl, s1.events = s.events ++ tl ∧ ∀ e ∈ tl, e ≠ Ev.heater true) := by
  have hc : (heatEntry env s).currTemp < ROOM_TEMP := by simpa using hcold
  have htl : ∃ tl, (heatEntry env s).events = s.events ++ tl ∧
      ∀ e ∈ tl, e ≠ Ev.heater true := by
    rcases heatEntry_events env s with he | he
    · exact ⟨_, he, by intro e hme; simp at hme; subst hme; simp⟩
    · exact ⟨_, he, by intro e hme; simp at hme; rcases hme with rfl | rfl <;> simp⟩
  constructor
  · refine ⟨setFault '2' (heatEntry env s), ?_, by simp, by simpa using htl⟩
    rw [heatUp_eq, if_pos hc]
  · refine ⟨setFault '2' (heatEntry env s), ?_, by simp, by simpa using htl⟩
    rw [heatUpFV_eq, if_pos hc]

/-- Witness for C1: constant 10-degree readings (below the 18-degree floor),
denaturation setpoint, initial state. -/
theorem heatUp_sensor_failure_witness :
    ((envConst 10).temps s0.readIdx < ROOM_TEMP) ∧
    ((∃ s1, heatUp (envConst 10) DENATURE_TEMP 1 1 s0 = some (false, s1) ∧
        s1.faultCode = '2' ∧
        ∃ tl, s1.events = s0.events ++ tl ∧ ∀ e ∈ tl, e ≠ Ev.heater true) ∧
     (∃ s1, heatUpFV (envConst 10) DENATURE_TEMP 1 1 s0 = some (false, s1) ∧
        s1.faultCode = '2' ∧
        ∃ tl, s1.events = s0.events ++ tl ∧ ∀ e ∈ tl, e ≠ Ev.heater true)) :=
  ⟨by norm_num [envConst, s0, ROOM_TEMP],
   heatUp_sensor_failure (envConst 10) DENATURE_TEMP 1 1 s0
     (by norm_num [envConst, s0, ROOM_TEMP])⟩

/-- C2: if the entry sample of heatUp is at or above the room-temperature
floor and strictly above the setpoint, heatUp fails with fault code 3
(EntryAboveSetpoint) and the heater is never commanded on. -/
theorem heatUp_entry_above_setpoint (env : Env) (sp : ℚ) (hf hif : Nat) (s : PCRState)
    (hwarm : ROOM_TEMP ≤ env.temps s.readIdx) (hover : sp < env.temps s.readIdx) :
    ∃ s1, heatUp env sp hf hif s = some (false, s1) ∧ s1.faultCode = '3' ∧
      ∃ tl, s1.events = s.events ++ tl ∧ ∀ e ∈ tl, e ≠ Ev.heater true := by
  have hc : ¬ ((heatEntry env s).currTemp < ROOM_TEMP) := by simpa using not_lt.mpr hwarm
  have hc2 : (heatEntry env s).currTemp > sp := by simpa using hover
  have htl : ∃ tl, (heatEntry env s).events = s.events ++ tl ∧
      ∀ e ∈ tl, e ≠ Ev.heater true := by
    rcases heatEntry_events env s with he | he
    · exact ⟨_, he, by intro e hme; simp at hme; subst hme; simp⟩
    · exact ⟨_, he, by intro e hme; simp at hme; rcases hme with rfl | rfl <;> simp⟩
  refine ⟨setFault '3' (heatEntry env s), ?_, by simp, by simpa using htl⟩
  rw [heatUp_eq, if_neg hc, if_pos hc2]

/-- Witness for C2: constant 95-degree readings against the 94-degree
denaturation setpoint. -/
theorem heatUp_entry_above_setpoint_witness :
    (ROOM_TEMP ≤ (envConst 95).temps s0.readIdx) ∧
    (DENATURE_TEMP < (envConst 95).temps s0.readIdx) ∧
    (∃ s1, heatUp (envConst 95) DENATURE_TEMP 1 1 s0 = some (false, s1) ∧
      s1.faultCode = '3' ∧
      ∃ tl, s1.events = s0.events ++ tl ∧ ∀ e ∈ tl, e ≠ Ev.heater true) :=
  ⟨by norm_num [envConst, s0, ROOM_TEMP],
   by norm_num [envConst, s0, DENATURE_TEMP],
   heatUp_entry_above_setpoint (envConst 95) DENATURE_TEMP 1 1 s0
     (by norm_num [envConst, s0, ROOM_TEMP]) (by norm_num [envConst, s0, DENATURE_TEMP])⟩

/-- C3 (code bug): when the entry sample equals the setpoint exactly, heatUp
takes neither precheck branch, its while loop body never runs (the guard
currTemp < setpoint is already false), and it returns ris = false - its
initial value - without setting any fault code: the failure carries the
caller's previous fault code '0' (None), contradicting both the spec's
"failure always carries a FaultKind" and heatUp's own header comment that it
returns true when the setpoint temperature has been reached. -/
theorem heatUp_equal_setpoint_bug :
    (heatUp (envConst DENATURE_TEMP) DENATURE_TEMP 1 1 s0).map
        (fun r => (r.1, r.2.faultCode)) = some (false, '0') ∧
    s0.faultCode = '0' := by
  constructor
  · rfl
  · rfl

lemma failStop_currCycle (s : PCRState) : (failStop s).currCycle = NUM_CYCLES := by
  simp [failStop]

lemma failStop_currPhase (s : PCRState) : (failStop s).currPhase = FAULT := by
  simp [failStop]

lemma stepThen_cases (o : Option (Bool × PCRState))
    (k : PCRState → Option (PCRState ⊕ PCRState)) (x : PCRState ⊕ PCRState)
    (h : stepThen o k = some x) :
    (∃ s1, o = some (false, s1) ∧ x = Sum.inl (failStop s1)) ∨
    (∃ s1, o = some (true, s1) ∧ k s1 = some x) := by
  cases o with
  | none => simp [stepThen] at h
  | some p =>
    rcases p with ⟨b, s1⟩
    cases b
    · left
      refine ⟨s1, rfl, ?_⟩
      simpa [stepThen] using h.symm
    · right
      exact ⟨s1, rfl, by simpa [stepThen] using h⟩

lemma cycleBody_inl (env : Env) (hf hif df cf : Nat) (s r : PCRState)
    (h : cycleBody env hf hif df cf s = some (Sum.inl r)) : ∃ sx, r = failStop sx := by
  unfold cycleBody at h
  rcases stepThen_cases _ _ _ h with ⟨s1, _, hx⟩ | ⟨s1, _, h⟩
  · exact ⟨s1, by simpa using hx⟩
  · rcases stepThen_cases _ _ _ h with ⟨s2, _, hx⟩ | ⟨s2, _, h⟩
    · exact ⟨s2, by simpa using hx⟩
    · rcases stepThen_cases _ _ _ h with ⟨s3, _, hx⟩ | ⟨s3, _, h⟩
      · exact ⟨s3, by simpa using hx⟩
      · rcases stepThen_cases _ _ _ h with ⟨s4, _, hx⟩ | ⟨s4, _, h⟩
        · exact ⟨s4, by simpa using hx⟩
        · rcases stepThen_cases _ _ _ h with ⟨s5, _, hx⟩ | ⟨s5, _, h⟩
          · exact ⟨s5, by simpa using hx⟩
          · rcases stepThen_cases _ _ _ h with ⟨s6, _, hx⟩ | ⟨s6, _, h⟩
            · exact ⟨s6, by simpa using hx⟩
            · simp at h

lemma logCall_true_events (s : PCRState) :
    (logCall true s).events =
      s.events ++ [Ev.emitRec true s.currCycle s.currPhase s.faultCode] := by
  simp [logCall, emitEv]

lemma pcrFinish_fault_events (r : PCRState) (h : r.currPhase = FAULT) :
    (pcrFinish r).events =
      r.events ++ [Ev.fanOut true, Ev.emitRec true r.currCycle FAULT r.faultCode] := by
  unfold pcrFinish
  rw [if_neg (by simp [h])]
  rw [logCall_true_events]
  simp [h]

/-- C4: whenever a phase step of a runPCR cycle returns failure, the
iteration runs the failure-handling block: the cycle index is set to the
NUM_CYCLES abort sentinel and the phase to Fault (so the for loop, which
returns this break state unchanged, executes no further phase), and the
epilogue of runPCR appends no regulation-phase entry and emits a forced log
record that the once-per-second rate limiter cannot suppress. -/
theorem runPCR_phase_failure_aborts (env : Env) (hf hif df cf fuel : Nat) (s r : PCRState)
    (h : cycleBody env hf hif df cf s = some (Sum.inl r)) :
    (r.currCycle = NUM_CYCLES ∧ r.currPhase = FAULT) ∧
    (s.currCycle < NUM_CYCLES → runCycles env hf hif df cf (fuel + 1) s = some r) ∧
    (∃ tl, (pcrFinish r).events = r.events ++ tl ∧
      (∀ e ∈ tl, isRegPhase e = false) ∧ ∃ c fc, Ev.emitRec true c FAULT fc ∈ tl) := by
  obtain ⟨sx, rfl⟩ := cycleBody_inl env hf hif df cf s r h
  refine ⟨⟨failStop_currCycle sx, failStop_currPhase sx⟩, ?_, ?_⟩
  · intro hlt
    simp [runCycles, hlt, h]
  · refine ⟨[Ev.fanOut true, Ev.emitRec true (failStop sx).currCycle FAULT (failStop sx).faultCode],
      pcrFinish_fault_events _ (failStop_currPhase sx), ?_, ?_⟩
    · intro e he
      simp at he
      rcases he with rfl | rfl <;> simp [isRegPhase]
    · exact ⟨(failStop sx).currCycle, (failStop sx).faultCode, by simp⟩

/-- Witness for C4: the first heatUp of the cycle fails at once on constant
10-degree readings (sensor failure), from the initial state. -/
theorem runPCR_phase_failure_aborts_witness :
    (cycleBody (envConst 10) 1 1 1 1 s0 =
      some (Sum.inl (inlState (cycleBody (envConst 10) 1 1 1 1 s0)))) ∧
    (((inlState (cycleBody (envConst 10) 1 1 1 1 s0)).currCycle = NUM_CYCLES ∧
      (inlState (cycleBody (envConst 10) 1 1 1 1 s0)).currPhase = FAULT) ∧
     (s0.currCycle < NUM_CYCLES →
       runCycles (envConst 10) 1 1 1 1 (4 + 1) s0 =
         some (inlState (cycleBody (envConst 10) 1 1 1 1 s0))) ∧
     (∃ tl, (pcrFinish (inlState (cycleBody (envConst 10) 1 1 1 1 s0))).events =
         (inlState (cycleBody (envConst 10) 1 1 1 1 s0)).events ++ tl ∧
       (∀ e ∈ tl, isRegPhase e = false) ∧ ∃ c fc, Ev.emitRec true c FAULT fc ∈ tl)) :=
  ⟨by rfl, runPCR_phase_failure_aborts (envConst 10) 1 1 1 1 4 s0
    (inlState (cycleBody (envConst 10) 1 1 1 1 s0)) (by rfl)⟩

@[simp] lemma sampleLog_currCycle (env : Env) (Z : PCRState) :
    (sampleLog env Z).currCycle = Z.currCycle := by simp [sampleLog]

@[simp] lemma sampleLog_currPhase (env : Env) (Z : PCRState) :
    (sampleLog env Z).currPhase = Z.currPhase := by simp [sampleLog]

@[simp] lemma sampleLog_faultCode (env : Env) (Z : PCRState) :
    (sampleLog env Z).faultCode = Z.faultCode := by simp [sampleLog]

@[simp] lemma sampleLog_currTemp (env : Env) (Z : PCRState) :
    (sampleLog env Z).currTemp = env.temps Z.readIdx := by simp [sampleLog]

@[simp] lemma sampleLog_prevTemp (env : Env) (Z : PCRState) :
    (sampleLog env Z).prevTemp = Z.prevTemp := by simp [sampleLog]

@[simp] lemma sampleLog_pinIdx (env : Env) (Z : PCRState) :
    (sampleLog env Z).pinIdx = Z.pinIdx := by simp [sampleLog]

@[simp] lemma sampleLog_prevInButton (env : Env) (Z : PCRState) :
    (sampleLog env Z).prevInButton = Z.prevInButton := by simp [sampleLog]

@[simp] lemma sampleLog_clock (env : Env) (Z : PCRState) :
    (sampleLog env Z).clock = Z.clock := by simp [sampleLog]

lemma sampleLog_tail (env : Env) (Z : PCRState) :
    ∃ tl, (sampleLog env Z).events = Z.events ++ tl ∧
      ∀ e ∈ tl, quietTail Z.currCycle Z.currPhase Z.faultCode e := by
  unfold sampleLog logCall
  split
  · refine ⟨[Ev.emitRec false Z.currCycle Z.currPhase Z.faultCode], by simp [emitEv], ?_⟩
    intro e he
    simp at he
    subst he
    simp [quietTail]
  · exact ⟨[], by simp, by simp⟩

lemma dampLoop_spec (env : Env) : ∀ (n : Nat) (s s' : PCRState),
    dampLoop env n s = some s' →
    s'.currCycle = s.currCycle ∧ s'.currPhase = s.currPhase ∧ s'.faultCode = s.faultCode ∧
    ∃ tl, s'.events = s.events ++ tl ∧
      ∀ e ∈ tl, quietTail s.currCycle s.currPhase s.faultCode e := by
  intro n
  induction n with
  | zero => intro s s' h; simp [dampLoop] at h
  | succ f ih =>
    intro s s' h
    unfold dampLoop at h
    dsimp only at h
    obtain ⟨tlog, hlog, hqlog⟩ :=
      sampleLog_tail env (delayMs OVERHEAT_TIME { s with prevTemp := s.currTemp })
    split at h
    · obtain ⟨h1, h2, h3, tl, htl, hq⟩ := ih _ _ h
      refine ⟨by simp [h1], by simp [h2], by simp [h3],
        Ev.timeDelay OVERHEAT_TIME :: tlog ++ tl, ?_, ?_⟩
      · rw [htl, hlog]
        simp
      · intro e he
        simp at he
        rcases he with rfl | he | he
        · simp [quietTail]
        · have := hqlog e he
          simpa using this
        · have := hq e he
          simpa using this
    · rename_i hcond
      injection h with h
      subst h
      refine ⟨by simp, by simp, by simp, Ev.timeDelay OVERHEAT_TIME :: tlog, ?_, ?_⟩
      · rw [hlog]
        simp
      · intro e he
        simp at he
        rcases he with rfl | he
        · simp [quietTail]
        · have := hqlog e he
          simpa using this

lemma slopeLoop_spec (env : Env) : ∀ (n : Nat) (s s' : PCRState),
    slopeLoop env n s = some s' →
    s'.currCycle = s.currCycle ∧ s'.currPhase = s.currPhase ∧ s'.faultCode = s.faultCode ∧
    ∃ tl, s'.events = s.events ++ tl ∧
      ∀ e ∈ tl, quietTail s.currCycle s.currPhase s.faultCode e := by
  intro n
  induction n with
  | zero =>
    intro s s' h
    unfold slopeLoop at h
    split at h
    · simp at h
    · injection h with h
      subst h
      exact ⟨rfl, rfl, rfl, [], by simp, by simp⟩
  | succ f ih =>
    intro s s' h
    unfold slopeLoop at h
    obtain ⟨tlog, hlog, hqlog⟩ :=
      sampleLog_tail env (delayMs MAX_HEAT_INCREASE_TIME { s with prevTemp := s.currTemp })
    split at h
    · obtain ⟨h1, h2, h3, tl, htl, hq⟩ := ih _ _ h
      refine ⟨by simp [h1], by simp [h2], by simp [h3],
        Ev.timeDelay MAX_HEAT_INCREASE_TIME :: tlog ++ tl, ?_, ?_⟩
      · rw [htl, hlog]
        simp
      · intro e he
        simp at he
        rcases he with rfl | he | he
        · simp [quietTail]
        · have := hqlog e he
          simpa using this
        · have := hq e he
          simpa using this
    · injection h with h
      subst h
      exact ⟨rfl, rfl, rfl, [], by simp, by simp⟩

lemma ceilLoop_spec (env : Env) : ∀ (n : Nat) (s s' : PCRState),
    ceilLoop env n s = some s' →
    s'.currCycle = s.currCycle ∧ s'.currPhase = s.currPhase ∧ s'.faultCode = s.faultCode ∧
    ∃ tl, s'.events = s.events ++ tl ∧
      ∀ e ∈ tl, quietTail s.currCycle s.currPhase s.faultCode e := by
  intro n
  induction n with
  | zero =>
    intro s s' h
    unfold ceilLoop at h
    split at h
    · simp at h
    · injection h with h
      subst h
      exact ⟨rfl, rfl, rfl, [], by simp, by simp⟩
  | succ f ih =>
    intro s s' h
    unfold ceilLoop at h
    obtain ⟨tlog, hlog, hqlog⟩ := sampleLog_tail env (delayMs MAX_ALLOWED_TEMP_TIME s)
    split at h
    · obtain ⟨h1, h2, h3, tl, htl, hq⟩ := ih _ _ h
      refine ⟨by simp [h1], by simp [h2], by simp [h3],
        Ev.timeDelay MAX_ALLOWED_TEMP_TIME :: tlog ++ tl, ?_, ?_⟩
      · rw [htl, hlog]
        simp
      · intro e he
        simp at he
        rcases he with rfl | he | he
        · simp [quietTail]
        · have := hqlog e he
          simpa using this
        · have := hq e he
          simpa using this
    · injection h with h
      subst h
      exact ⟨rfl, rfl, rfl, [], by simp, by simp⟩

lemma sampleLog_mem (env : Env) (Z : PCRState) :
    ∀ e ∈ (sampleLog env Z).events,
      e ∈ Z.events ∨ quietTail Z.currCycle Z.currPhase Z.faultCode e := by
  intro e he
  obtain ⟨tl, htl, hq⟩ := sampleLog_tail env Z
  rw [htl] at he
  rcases List.mem_append.mp he with h | h
  · exact Or.inl h
  · exact Or.inr (hq e h)

lemma dampLoop_mem (env : Env) (n : Nat) (s s' : PCRState) (h : dampLoop env n s = some s') :
    s'.currCycle = s.currCycle ∧ s'.currPhase = s.currPhase ∧ s'.faultCode = s.faultCode ∧
    ∀ e ∈ s'.events, e ∈ s.events ∨ quietTail s.currCycle s.currPhase s.faultCode e := by
  obtain ⟨h1, h2, h3, tl, htl, hq⟩ := dampLoop_spec env n s s' h
  refine ⟨h1, h2, h3, ?_⟩
  intro e he
  rw [htl] at he
  rcases List.mem_append.mp he with hm | hm
  · exact Or.inl hm
  · exact Or.inr (hq e hm)

lemma slopeLoop_mem (env : Env) (n : Nat) (s s' : PCRState) (h : slopeLoop env n s = some s') :
    s'.currCycle = s.currCycle ∧ s'.currPhase = s.currPhase ∧ s'.faultCode = s.faultCode ∧
    ∀ e ∈ s'.events, e ∈ s.events ∨ quietTail s.currCycle s.currPhase s.faultCode e := by
  obtain ⟨h1, h2, h3, tl, htl, hq⟩ := slopeLoop_spec env n s s' h
  refine ⟨h1, h2, h3, ?_⟩
  intro e he
  rw [htl] at he
  rcases List.mem_append.mp he with hm | hm
  · exact Or.inl hm
  · exact Or.inr (hq e hm)

lemma ceilLoop_mem (env : Env) (n : Nat) (s s' : PCRState) (h : ceilLoop env n s = some s') :
    s'.currCycle = s.currCycle ∧ s'.currPhase = s.currPhase ∧ s'.faultCode = s.faultCode ∧
    ∀ e ∈ s'.events, e ∈ s.events ∨ quietTail s.currCycle s.currPhase s.faultCode e := by
  obtain ⟨h1, h2, h3, tl, htl, hq⟩ := ceilLoop_spec env n s s' h
  refine ⟨h1, h2, h3, ?_⟩
  intro e he
  rw [htl] at he
  rcases List.mem_append.mp he with hm | hm
  · exact Or.inl hm
  · exact Or.inr (hq e hm)

lemma heatLoop_spec (env : Env) (sp : ℚ) (hif : Nat) : ∀ (n it : Nat) (s s' : PCRState) (b : Bool),
    heatLoop env sp hif n it s = some (b, s') →
    s'.currCycle = s.currCycle ∧ s'.currPhase = s.currPhase ∧
    (b = true → s'.faultCode = '0') ∧
    ∀ e ∈ s'.events, e ∈ s.events ∨ quietTail s.currCycle s.currPhase s.faultCode e := by
  intro n
  induction n with
  | zero =>
    intro it s s' b h
    unfold heatLoop at h
    split at h
    · simp at h
    · simp only [Option.some.injEq, Prod.mk.injEq] at h
      obtain ⟨hb, hs⟩ := h
      subst hb
      subst hs
      exact ⟨rfl, rfl, by simp, fun e he => Or.inl he⟩
  | succ f ih =>
    intro it s s' b h
    have pulseMem : ∀ (Z : PCRState) (pd : Nat),
        Z.currCycle = s.currCycle → Z.currPhase = s.currPhase → Z.faultCode = s.faultCode →
        (∀ e ∈ Z.events, e ∈ s.events) →
        ∀ e ∈ (heaterWrite false (sampleLog env (delayMs pd (heaterWrite true Z)))).events,
          e ∈ s.events ∨ quietTail s.currCycle s.currPhase s.faultCode e := by
      intro Z pd hc hp hf hm e he
      have he' : e ∈ (sampleLog env (delayMs pd (heaterWrite true Z))).events ∨
          e = Ev.heater false := by
        simpa using he
      rcases he' with he' | rfl
      · rcases sampleLog_mem env _ e he' with hmem | hq
        · simp at hmem
          rcases hmem with hmem | rfl | rfl
          · exact Or.inl (hm e hmem)
          · exact Or.inr (by simp [quietTail])
          · exact Or.inr (by simp [quietTail])
        · right
          simpa [hc, hp, hf] using hq
      · exact Or.inr (by simp [quietTail])
    unfold heatLoop at h
    dsimp only at h
    split at h
    case isFalse =>
      simp only [Option.some.injEq, Prod.mk.injEq] at h
      obtain ⟨hb, hs⟩ := h
      subst hb
      subst hs
      exact ⟨rfl, rfl, by simp, fun e he => Or.inl he⟩
    case isTrue hlt =>
      split at h
      case isTrue hbp =>
        simp only [Option.some.injEq, Prod.mk.injEq] at h
        obtain ⟨hb, hs⟩ := h
        subst hb
        subst hs
        refine ⟨by simp, by simp, by simp, ?_⟩
        intro e he
        exact Or.inl (by simpa using he)
      case isFalse hbp =>
        have baseMem : ∀ e ∈ (buttonPressed env s).2.events, e ∈ s.events := by
          intro e he
          simpa using he
        split at h
        case isTrue hge =>
          simp only [Option.some.injEq, Prod.mk.injEq] at h
          obtain ⟨hb, hs⟩ := h
          subst hb
          subst hs
          exact ⟨by simp, by simp, by simp,
            pulseMem _ _ (by simp) (by simp) (by simp) baseMem⟩
        case isFalse hge =>
          split at h
          case h_1 heq => simp at h
          case h_2 s3 heq =>
            have hdamp : s3.currCycle = s.currCycle ∧ s3.currPhase = s.currPhase ∧
                s3.faultCode = s.faultCode ∧
                ∀ e ∈ s3.events, e ∈ s.events ∨
                  quietTail s.currCycle s.currPhase s.faultCode e := by
              split at heq
              · obtain ⟨d1, d2, d3, dm⟩ := dampLoop_mem env hif _ _ heq
                refine ⟨by simpa using d1, by simpa using d2, by simpa using d3, ?_⟩
                intro e he
                rcases dm e he with hm | hq
                · exact pulseMem _ _ (by simp) (by simp) (by simp) baseMem e hm
                · right
                  simpa using hq
              · injection heq with heq
                subst heq
                exact ⟨by simp, by simp, by simp,
                  pulseMem _ _ (by simp) (by simp) (by simp) baseMem⟩
            obtain ⟨d1, d2, d3, dmem⟩ := hdamp
            split at h
            case isTrue hge2 =>
              simp only [Option.some.injEq, Prod.mk.injEq] at h
              obtain ⟨hb, hs⟩ := h
              subst hb
              subst hs
              exact ⟨by simpa using d1, by simpa using d2, by simp, dmem⟩
            case isFalse hge2 =>
              split at h
              case h_1 sF heq2 =>
                have hsF : sF.currCycle = s3.currCycle ∧ sF.currPhase = s3.currPhase ∧
                    sF.events = s3.events := by
                  split at heq2
                  · split at heq2
                    · injection heq2 with heq2
                      subst heq2
                      exact ⟨by simp, by simp, by simp⟩
                    · simp at heq2
                  · simp at heq2
                simp only [Option.some.injEq, Prod.mk.injEq] at h
                obtain ⟨hb, hs⟩ := h
                subst hb
                subst hs
                refine ⟨hsF.1.trans d1, hsF.2.1.trans d2, by simp, ?_⟩
                intro e he
                rw [hsF.2.2] at he
                exact dmem e he
              case h_2 s4 heq2 =>
                have hs4 : s4.currCycle = s3.currCycle ∧ s4.currPhase = s3.currPhase ∧
                    s4.faultCode = s3.faultCode ∧ s4.events = s3.events := by
                  split at heq2
                  · split at heq2
                    · simp at heq2
                    · injection heq2 with heq2
                      subst heq2
                      exact ⟨rfl, rfl, rfl, rfl⟩
                  · injection heq2 with heq2
                    subst heq2
                    exact ⟨by simp, by simp, by simp, by simp⟩
                split at h
                case h_1 heq3 => simp at h
                case h_2 s5 heq3 =>
                  obtain ⟨e1, e2, e3, emem⟩ := slopeLoop_mem env hif _ _ heq3
                  split at h
                  case h_1 heq4 => simp at h
                  case h_2 s6 heq4 =>
                    obtain ⟨g1, g2, g3, gmem⟩ := ceilLoop_mem env hif _ _ heq4
                    obtain ⟨r1, r2, r3, rmem⟩ := ih _ _ _ _ h
                    have hc4 : s4.currCycle = s.currCycle := hs4.1.trans d1
                    have hp4 : s4.currPhase = s.currPhase := hs4.2.1.trans d2
                    have hf4 : s4.faultCode = s.faultCode := hs4.2.2.1.trans d3
                    have hc5 : s5.currCycle = s.currCycle := e1.trans hc4
                    have hp5 : s5.currPhase = s.currPhase := e2.trans hp4
                    have hf5 : s5.faultCode = s.faultCode := e3.trans hf4
                    have hc6 : s6.currCycle = s.currCycle := g1.trans hc5
                    have hp6 : s6.currPhase = s.currPhase := g2.trans hp5
                    have hf6 : s6.faultCode = s.faultCode := g3.trans hf5
                    refine ⟨r1.trans hc6, r2.trans hp6, r3, ?_⟩
                    intro e he
                    rcases rmem e he with hm | hq
                    · rcases gmem e hm with hm2 | hq2
                      · rcases emem e hm2 with hm3 | hq3
                        · rw [hs4.2.2.2] at hm3
                          exact dmem e hm3
                        · right
                          rw [hc4, hp4, hf4] at hq3
                          exact hq3
                      · right
                        rw [hc5, hp5, hf5] at hq2
                        exact hq2
                    · right
                      rw [hc6, hp6, hf6] at hq
                      exact hq

lemma heatEntry_mem (env : Env) (s : PCRState) :
    ∀ e ∈ (heatEntry env s).events,
      e ∈ s.events ∨ quietTail s.currCycle s.currPhase s.faultCode e := by
  intro e he
  rcases heatEntry_events env s with h | h <;> rw [h] at he <;> simp at he
  · rcases he with he | rfl
    · exact Or.inl he
    · exact Or.inr (by simp [quietTail])
  · rcases he with he | rfl | rfl
    · exact Or.inl he
    · exact Or.inr (by simp [quietTail])
    · exact Or.inr (by simp [quietTail])

lemma heatUp_spec (env : Env) (sp : ℚ) (hf hif : Nat) (s s' : PCRState) (b : Bool)
    (h : heatUp env sp hf hif s = some (b, s')) :
    s'.currCycle = s.currCycle ∧ s'.currPhase = s.currPhase ∧
    (b = true → s'.faultCode = '0') ∧
    ∀ e ∈ s'.events, e ∈ s.events ∨ quietTail s.currCycle s.currPhase s.faultCode e := by
  rw [heatUp_eq] at h
  split at h
  · simp only [Option.some.injEq, Prod.mk.injEq] at h
    obtain ⟨hb, hs⟩ := h
    subst hb
    subst hs
    refine ⟨by simp, by simp, by simp, ?_⟩
    intro e he
    exact heatEntry_mem env s e (by simpa using he)
  · split at h
    · simp only [Option.some.injEq, Prod.mk.injEq] at h
      obtain ⟨hb, hs⟩ := h
      subst hb
      subst hs
      refine ⟨by simp, by simp, by simp, ?_⟩
      intro e he
      exact heatEntry_mem env s e (by simpa using he)
    · obtain ⟨h1, h2, h3, hm⟩ := heatLoop_spec env sp hif hf 0 _ _ b h
      refine ⟨h1.trans (by simp), h2.trans (by simp), h3, ?_⟩
      intro e he
      rcases hm e he with hm2 | hq
      · exact heatEntry_mem env s e hm2
      · right
        simpa using hq

@[simp] lemma coolEntry_currCycle (env : Env) (s : PCRState) :
    (coolEntry env s).currCycle = s.currCycle := by simp [coolEntry]

@[simp] lemma coolEntry_currPhase (env : Env) (s : PCRState) :
    (coolEntry env s).currPhase = s.currPhase := by simp [coolEntry]

lemma coolEntry_mem (env : Env) (s : PCRState) :
    ∀ e ∈ (coolEntry env s).events,
      e ∈ s.events ∨ quietTail s.currCycle s.currPhase s.faultCode e := by
  intro e he
  rcases coolEntry_events env s with h | h <;> rw [h] at he
  · exact Or.inl he
  · simp at he
    rcases he with he | rfl
    · exact Or.inl he
    · exact Or.inr (by simp [quietTail])

lemma coolLoop_spec (env : Env) (sp : ℚ) (mt : Nat) : ∀ (n : Nat) (s s' : PCRState) (b : Bool),
    coolLoop env sp mt n s = some (b, s') →
    s'.currCycle = s.currCycle ∧ s'.currPhase = s.currPhase ∧
    (b = true → s'.faultCode = s.faultCode) ∧
    ∀ e ∈ s'.events, e ∈ s.events ∨ quietTail s.currCycle s.currPhase s.faultCode e := by
  intro n
  induction n with
  | zero =>
    intro s s' b h
    unfold coolLoop at h
    split at h
    · simp at h
    · simp only [Option.some.injEq, Prod.mk.injEq] at h
      obtain ⟨hb, hs⟩ := h
      subst hb
      subst hs
      exact ⟨rfl, rfl, fun _ => rfl, fun e he => Or.inl he⟩
  | succ f ih =>
    intro s s' b h
    have stepMem : ∀ e ∈ (buttonPressed env (sampleLog env (delayMs mt (fanWrite true s)))).2.events,
        e ∈ s.events ∨ quietTail s.currCycle s.currPhase s.faultCode e := by
      intro e he
      have he' : e ∈ (sampleLog env (delayMs mt (fanWrite true s))).events := by simpa using he
      rcases sampleLog_mem env _ e he' with hm | hq
      · simp at hm
        rcases hm with hm | rfl | rfl
        · exact Or.inl hm
        · exact Or.inr (by simp [quietTail])
        · exact Or.inr (by simp [quietTail])
      · right
        simpa using hq
    unfold coolLoop at h
    dsimp only at h
    split at h
    case isFalse =>
      simp only [Option.some.injEq, Prod.mk.injEq] at h
      obtain ⟨hb, hs⟩ := h
      subst hb
      subst hs
      exact ⟨rfl, rfl, fun _ => rfl, fun e he => Or.inl he⟩
    case isTrue hguard =>
      split at h
      case isTrue hbp =>
        simp only [Option.some.injEq, Prod.mk.injEq] at h
        obtain ⟨hb, hs⟩ := h
        subst hb
        subst hs
        refine ⟨by simp, by simp, by simp, ?_⟩
        intro e he
        exact stepMem e (by simpa using he)
      case isFalse hbp =>
        obtain ⟨h1, h2, h3, hm⟩ := ih _ _ _ h
        refine ⟨h1.trans (by simp), h2.trans (by simp),
          fun hb => (h3 hb).trans (by simp), ?_⟩
        intro e he
        rcases hm e he with hm2 | hq
        · exact stepMem e hm2
        · right
          simpa using hq

lemma coolDown_spec (env : Env) (sp : ℚ) (mt fuel : Nat) (s s' : PCRState) (b : Bool)
    (h : coolDown env sp mt fuel s = some (b, s')) :
    s'.currCycle = s.currCycle ∧ s'.currPhase = s.currPhase ∧
    (b = true → s'.faultCode = s.faultCode) ∧
    ∀ e ∈ s'.events, e ∈ s.events ∨ quietTail s.currCycle s.currPhase s.faultCode e := by
  rw [coolDown_eq] at h
  split at h
  · simp at h
  · rename_i ris s3 heq
    simp only [Option.some.injEq, Prod.mk.injEq] at h
    obtain ⟨hb, hs⟩ := h
    subst hb
    subst hs
    obtain ⟨h1, h2, h3, hm⟩ := coolLoop_spec env sp mt fuel _ _ _ heq
    refine ⟨by simpa using h1, by simpa using h2,
      fun hb => by simpa using (h3 hb).trans (by simp), ?_⟩
    intro e he
    have he' : e ∈ s3.events ∨ e = Ev.fanOut false := by simpa using he
    rcases he' with he' | rfl
    · rcases hm e he' with hm2 | hq
      · exact coolEntry_mem env s e hm2
      · right
        simpa using hq
    · exact Or.inr (by simp [quietTail])

lemma heaterWrite_mem (c p : Nat) (fc : Char) (b : Bool) (X : PCRState) :
    ∀ e ∈ (heaterWrite b X).events, e ∈ X.events ∨ quietTail c p fc e := by
  intro e he
  simp at he
  rcases he with he | rfl
  · exact Or.inl he
  · exact Or.inr (by simp [quietTail])

lemma fanWrite_mem (c p : Nat) (fc : Char) (b : Bool) (X : PCRState) :
    ∀ e ∈ (fanWrite b X).events, e ∈ X.events ∨ quietTail c p fc e := by
  intro e he
  simp at he
  rcases he with he | rfl
  · exact Or.inl he
  · exact Or.inr (by simp [quietTail])

lemma delayMs_mem (c p : Nat) (fc : Char) (ms : Nat) (X : PCRState) :
    ∀ e ∈ (delayMs ms X).events, e ∈ X.events ∨ quietTail c p fc e := by
  intro e he
  simp at he
  rcases he with he | rfl
  · exact Or.inl he
  · exact Or.inr (by simp [quietTail])

lemma holdBody_spec (env : Env) (sp : ℚ) (s : PCRState) :
    (∀ sB, holdBody env sp s = .inl sB → sB.currCycle = s.currCycle ∧
      sB.currPhase = s.currPhase ∧ ∀ e ∈ sB.events, e ∈ s.events) ∧
    (∀ sC, holdBody env sp s = .inr sC → sC.currCycle = s.currCycle ∧
      sC.currPhase = s.currPhase ∧ sC.faultCode = s.faultCode ∧
      ∀ e ∈ sC.events, e ∈ s.events ∨ quietTail s.currCycle s.currPhase s.faultCode e) := by
  have s1Mem : ∀ e ∈ (sampleLog env (buttonPressed env s).2).events,
      e ∈ s.events ∨ quietTail s.currCycle s.currPhase s.faultCode e := by
    intro e he
    rcases sampleLog_mem env _ e he with hm | hq
    · exact Or.inl (by simpa using hm)
    · right
      simpa using hq
  unfold holdBody
  dsimp only
  split
  case isTrue hbp =>
    constructor
    · intro sB hB
      injection hB with hB
      subst hB
      exact ⟨by simp, by simp, fun e he => by simpa using he⟩
    · intro sC hC
      simp at hC
  case isFalse hbp =>
    constructor
    · intro sB hB
      simp at hB
    · intro sC hC
      injection hC with hC
      subst hC
      refine ⟨?_, ?_, ?_, ?_⟩
      · split_ifs <;> simp
      · split_ifs <;> simp
      · split_ifs <;> simp
      · intro e he
        rcases delayMs_mem s.currCycle s.currPhase s.faultCode _ _ e he with he | hq
        · split_ifs at he
          · rcases heaterWrite_mem s.currCycle s.currPhase s.faultCode _ _ e he with he | hq
            · rcases delayMs_mem s.currCycle s.currPhase s.faultCode _ _ e he with he | hq
              · rcases heaterWrite_mem s.currCycle s.currPhase s.faultCode _ _ e he with he | hq
                · exact s1Mem e he
                · exact Or.inr hq
              · exact Or.inr hq
            · exact Or.inr hq
          · rcases fanWrite_mem s.currCycle s.currPhase s.faultCode _ _ e he with he | hq
            · rcases delayMs_mem s.currCycle s.currPhase s.faultCode _ _ e he with he | hq
              · rcases fanWrite_mem s.currCycle s.currPhase s.faultCode _ _ e he with he | hq
                · exact s1Mem e he
                · exact Or.inr hq
              · exact Or.inr hq
            · exact Or.inr hq
          · rcases delayMs_mem s.currCycle s.currPhase s.faultCode _ _ e he with he | hq
            · exact s1Mem e he
            · exact Or.inr hq
        · exact Or.inr hq

lemma holdLoop_spec (env : Env) (dur : Nat) (sp : ℚ) : ∀ (n : Nat) (s s' : PCRState) (b : Bool),
    holdLoop env dur sp n s = some (b, s') →
    s'.currCycle = s.currCycle ∧ s'.currPhase = s.currPhase ∧
    (b = true → s'.faultCode = s.faultCode) ∧
    ∀ e ∈ s'.events, e ∈ s.events ∨ quietTail s.currCycle s.currPhase s.faultCode e := by
  intro n
  induction n with
  | zero =>
    intro s s' b h
    unfold holdLoop at h
    split at h
    · simp at h
    · simp only [Option.some.injEq, Prod.mk.injEq] at h
      obtain ⟨hb, hs⟩ := h
      subst hb
      subst hs
      exact ⟨rfl, rfl, fun _ => rfl, fun e he => Or.inl he⟩
  | succ f ih =>
    intro s s' b h
    unfold holdLoop at h
    split at h
    case isFalse =>
      simp only [Option.some.injEq, Prod.mk.injEq] at h
      obtain ⟨hb, hs⟩ := h
      subst hb
      subst hs
      exact ⟨rfl, rfl, fun _ => rfl, fun e he => Or.inl he⟩
    case isTrue helapsed =>
      split at h
      case h_1 sB hB =>
        obtain ⟨b1, b2, b3⟩ := (holdBody_spec env sp s).1 sB hB
        simp only [Option.some.injEq, Prod.mk.injEq] at h
        obtain ⟨hb, hs⟩ := h
        subst hb
        subst hs
        exact ⟨b1, b2, by simp, fun e he => Or.inl (b3 e he)⟩
      case h_2 sC hC =>
        obtain ⟨c1, c2, c3, c4⟩ := (holdBody_spec env sp s).2 sC hC
        obtain ⟨h1, h2, h3, hm⟩ := ih _ _ _ h
        refine ⟨h1.trans c1, h2.trans c2, fun hb => (h3 hb).trans c3, ?_⟩
        intro e he
        rcases hm e he with hm2 | hq
        · exact c4 e hm2
        · right
          rw [c1, c2, c3] at hq
          exact hq

lemma holdConstantTemp_spec (env : Env) (dur : Nat) (sp : ℚ) (fuel : Nat) (s s' : PCRState)
    (b : Bool) (h : holdConstantTemp env dur sp fuel s = some (b, s')) :
    s'.currCycle = s.currCycle ∧ s'.currPhase = s.currPhase ∧
    (b = true → s'.faultCode = s.faultCode) ∧
    ∀ e ∈ s'.events, e ∈ s.events ∨ e = Ev.holdStart s.currCycle s.currPhase dur ∨
      quietTail s.currCycle s.currPhase s.faultCode e := by
  unfold holdConstantTemp at h
  obtain ⟨h1, h2, h3, hm⟩ := holdLoop_spec env dur sp fuel _ _ _ h
  refine ⟨h1.trans (by simp), h2.trans (by simp), fun hb => (h3 hb).trans (by simp), ?_⟩
  intro e he
  rcases hm e he with hm2 | hq
  · have : e ∈ s.events ∨ e = Ev.holdStart s.currCycle s.currPhase dur := by
      simpa using hm2
    rcases this with h | h
    · exact Or.inl h
    · exact Or.inr (Or.inl h)
  · right
    right
    simpa using hq

lemma quiet_cycleOK (i p : Nat) (e : Ev) (h : quietTail i p '0' e) : cycleOK i e := by
  cases e with
  | heater b => simp [cycleOK]
  | fanOut b => simp [cycleOK]
  | timeDelay ms => simp [cycleOK]
  | phase q => exact absurd h (by simp [quietTail])
  | holdStart c q d => exact absurd h (by simp [quietTail])
  | emitRec f c q fc =>
    simp [quietTail] at h
    simp [cycleOK]
    intro
    exact h.2.2

lemma phaseSet_memOK (i p : Nat) (X : PCRState) :
    ∀ e ∈ (phaseSet p X).events, e ∈ X.events ∨ cycleOK i e := by
  intro e he
  simp at he
  rcases he with he | rfl
  · exact Or.inl he
  · exact Or.inr (by simp [cycleOK])

lemma failStop_mem (i : Nat) (sX : PCRState) :
    ∀ e ∈ (failStop sX).events, e ∈ sX.events ∨ cycleOK i e := by
  intro e he
  unfold failStop at he
  rw [logCall_events] at he
  by_cases hc : logSecs (phaseSet FAULT { sX with currCycle := NUM_CYCLES }) >
      (phaseSet FAULT { sX with currCycle := NUM_CYCLES }).timeCounter ∨ False
  · rw [if_pos (by simpa using hc)] at he
    simp at he
    rcases he with he | rfl | rfl
    · exact Or.inl he
    · exact Or.inr (by simp [cycleOK])
    · exact Or.inr (by simp [cycleOK, FAULT])
  · rw [if_neg (by simpa using hc)] at he
    simp at he
    rcases he with he | rfl
    · exact Or.inl he
    · exact Or.inr (by simp [cycleOK])

lemma heat_step_memOK (env : Env) (sp : ℚ) (hf hif : Nat) (i p : Nat) (X s' : PCRState) (b : Bool)
    (h : heatUp env sp hf hif X = some (b, s'))
    (hX : X.currCycle = i) (hp : X.currPhase = p) (hfcX : X.faultCode = '0') :
    (∀ e ∈ s'.events, e ∈ X.events ∨ cycleOK i e) ∧ s'.currCycle = i ∧ s'.currPhase = p ∧
    (b = true → s'.faultCode = '0') := by
  obtain ⟨h1, h2, h3, hm⟩ := heatUp_spec env sp hf hif X s' b h
  refine ⟨?_, h1.trans hX, h2.trans hp, h3⟩
  intro e he
  rcases hm e he with he | hq
  · exact Or.inl he
  · right
    apply quiet_cycleOK i p
    rwa [hX, hp, hfcX] at hq

lemma cool_step_memOK (env : Env) (sp : ℚ) (mt cf : Nat) (i p : Nat) (X s' : PCRState) (b : Bool)
    (h : coolDown env sp mt cf X = some (b, s'))
    (hX : X.currCycle = i) (hp : X.currPhase = p) (hfcX : X.faultCode = '0') :
    (∀ e ∈ s'.events, e ∈ X.events ∨ cycleOK i e) ∧ s'.currCycle = i ∧ s'.currPhase = p ∧
    (b = true → s'.faultCode = '0') := by
  obtain ⟨h1, h2, h3, hm⟩ := coolDown_spec env sp mt cf X s' b h
  refine ⟨?_, h1.trans hX, h2.trans hp, fun hb => (h3 hb).trans hfcX⟩
  intro e he
  rcases hm e he with he | hq
  · exact Or.inl he
  · right
    apply quiet_cycleOK i p
    rwa [hX, hp, hfcX] at hq

lemma hold_step_memOK (env : Env) (dur : Nat) (sp : ℚ) (df : Nat) (i p : Nat)
    (X s' : PCRState) (b : Bool)
    (h : holdConstantTemp env dur sp df X = some (b, s'))
    (hX : X.currCycle = i) (hp : X.currPhase = p) (hfcX : X.faultCode = '0')
    (hOK : cycleOK i (Ev.holdStart i p dur)) :
    (∀ e ∈ s'.events, e ∈ X.events ∨ cycleOK i e) ∧ s'.currCycle = i ∧ s'.currPhase = p ∧
    (b = true → s'.faultCode = '0') := by
  obtain ⟨h1, h2, h3, hm⟩ := holdConstantTemp_spec env dur sp df X s' b h
  refine ⟨?_, h1.trans hX, h2.trans hp, fun hb => (h3 hb).trans hfcX⟩
  intro e he
  rcases hm e he with he | he | hq
  · exact Or.inl he
  · rw [hX, hp] at he
    subst he
    exact Or.inr hOK
  · right
    apply quiet_cycleOK i p
    rwa [hX, hp, hfcX] at hq

lemma cycleBody_spec (env : Env) (hf hif df cf : Nat) (s : PCRState) (hfc : s.faultCode = '0') :
    ∀ x, cycleBody env hf hif df cf s = some x →
      (∀ r, x = Sum.inl r → ∀ e ∈ r.events, e ∈ s.events ∨ cycleOK s.currCycle e) ∧
      (∀ r, x = Sum.inr r → r.currCycle = s.currCycle ∧ r.faultCode = '0' ∧
        ∀ e ∈ r.events, e ∈ s.events ∨ cycleOK s.currCycle e) := by
  intro x h
  unfold cycleBody at h
  have mem0 : ∀ e ∈ (phaseSet HEATING s).events, e ∈ s.events ∨ cycleOK s.currCycle e :=
    phaseSet_memOK s.currCycle HEATING s
  rcases stepThen_cases _ _ _ h with ⟨s1, hs1, rfl⟩ | ⟨s1, hs1, h⟩
  · obtain ⟨m1, c1, p1, f1⟩ := heat_step_memOK env DENATURE_TEMP hf hif s.currCycle HEATING
      _ _ _ hs1 (by simp) (by simp) (by simp [hfc])
    refine ⟨?_, ?_⟩
    · intro r hr
      simp only [Sum.inl.injEq] at hr
      subst hr
      intro e he
      rcases failStop_mem s.currCycle s1 e he with he | hok
      · rcases m1 e he with he | hok
        · exact mem0 e he
        · exact Or.inr hok
      · exact Or.inr hok
    · intro r hr
      simp at hr
  · obtain ⟨m1, c1, p1, f1⟩ := heat_step_memOK env DENATURE_TEMP hf hif s.currCycle HEATING
      _ _ _ hs1 (by simp) (by simp) (by simp [hfc])
    have mem1 : ∀ e ∈ s1.events, e ∈ s.events ∨ cycleOK s.currCycle e := by
      intro e he
      rcases m1 e he with he | hok
      · exact mem0 e he
      · exact Or.inr hok
    have mem1p : ∀ e ∈ (phaseSet DENATURATION s1).events,
        e ∈ s.events ∨ cycleOK s.currCycle e := by
      intro e he
      rcases phaseSet_memOK s.currCycle DENATURATION s1 e he with he | hok
      · exact mem1 e he
      · exact Or.inr hok
    rw [show (phaseSet DENATURATION s1).currCycle = s.currCycle from by simp [c1]] at h
    rcases stepThen_cases _ _ _ h with ⟨s2, hs2, rfl⟩ | ⟨s2, hs2, h⟩
    · obtain ⟨m2, c2, p2, f2⟩ := hold_step_memOK env _ DENATURE_TEMP df s.currCycle DENATURATION
        _ _ _ hs2 (by simp [c1]) (by simp) (by simp [f1 rfl])
        (by simp [cycleOK, DENATURATION, EXTENSION])
      refine ⟨?_, ?_⟩
      · intro r hr
        simp only [Sum.inl.injEq] at hr
        subst hr
        intro e he
        rcases failStop_mem s.currCycle s2 e he with he | hok
        · rcases m2 e he with he | hok
          · exact mem1p e he
          · exact Or.inr hok
        · exact Or.inr hok
      · intro r hr
        simp at hr
    · obtain ⟨m2, c2, p2, f2⟩ := hold_step_memOK env _ DENATURE_TEMP df s.currCycle DENATURATION
        _ _ _ hs2 (by simp [c1]) (by simp) (by simp [f1 rfl])
        (by simp [cycleOK, DENATURATION, EXTENSION])
      have mem2 : ∀ e ∈ s2.events, e ∈ s.events ∨ cycleOK s.currCycle e := by
        intro e he
        rcases m2 e he with he | hok
        · exact mem1p e he
        · exact Or.inr hok
      have mem2p : ∀ e ∈ (phaseSet COOLING s2).events,
          e ∈ s.events ∨ cycleOK s.currCycle e := by
        intro e he
        rcases phaseSet_memOK s.currCycle COOLING s2 e he with he | hok
        · exact mem2 e he
        · exact Or.inr hok
      rcases stepThen_cases _ _ _ h with ⟨s3, hs3, rfl⟩ | ⟨s3, hs3, h⟩
      · obtain ⟨m3, c3, p3, f3⟩ := cool_step_memOK env ANNEALING_TEMP COOL_SAMPLE_TIME cf
          s.currCycle COOLING _ _ _ hs3 (by simp [c2]) (by simp) (by simp [f2 rfl])
        refine ⟨?_, ?_⟩
        · intro r hr
          simp only [Sum.inl.injEq] at hr
          subst hr
          intro e he
          rcases failStop_mem s.currCycle s3 e he with he | hok
          · rcases m3 e he with he | hok
            · exact mem2p e he
            · exact Or.inr hok
          · exact Or.inr hok
        · intro r hr
          simp at hr
      · obtain ⟨m3, c3, p3, f3⟩ := cool_step_memOK env ANNEALING_TEMP COOL_SAMPLE_TIME cf
          s.currCycle COOLING _ _ _ hs3 (by simp [c2]) (by simp) (by simp [f2 rfl])
        have mem3 : ∀ e ∈ s3.events, e ∈ s.events ∨ cycleOK s.currCycle e := by
          intro e he
          rcases m3 e he with he | hok
          · exact mem2p e he
          · exact Or.inr hok
        have mem3p : ∀ e ∈ (phaseSet ANNEALING s3).events,
            e ∈ s.events ∨ cycleOK s.currCycle e := by
          intro e he
          rcases phaseSet_memOK s.currCycle ANNEALING s3 e he with he | hok
          · exact mem3 e he
          · exact Or.inr hok
        rcases stepThen_cases _ _ _ h with ⟨s4, hs4, rfl⟩ | ⟨s4, hs4, h⟩
        · obtain ⟨m4, c4, p4, f4⟩ := hold_step_memOK env ANNEALING_TIME ANNEALING_TEMP df
            s.currCycle ANNEALING _ _ _ hs4 (by simp [c3]) (by simp) (by simp [f3 rfl])
            (by simp [cycleOK, ANNEALING, DENATURATION, EXTENSION])
          refine ⟨?_, ?_⟩
          · intro r hr
            simp only [Sum.inl.injEq] at hr
            subst hr
            intro e he
            rcases failStop_mem s.currCycle s4 e he with he | hok
            · rcases m4 e he with he | hok
              · exact mem3p e he
              · exact Or.inr hok
            · exact Or.inr hok
          · intro r hr
            simp at hr
        · obtain ⟨m4, c4, p4, f4⟩ := hold_step_memOK env ANNEALING_TIME ANNEALING_TEMP df
            s.currCycle ANNEALING _ _ _ hs4 (by simp [c3]) (by simp) (by simp [f3 rfl])
            (by simp [cycleOK, ANNEALING, DENATURATION, EXTENSION])
          have mem4 : ∀ e ∈ s4.events, e ∈ s.events ∨ cycleOK s.currCycle e := by
            intro e he
            rcases m4 e he with he | hok
            · exact mem3p e he
            · exact Or.inr hok
          have mem4p : ∀ e ∈ (phaseSet HEATING s4).events,
              e ∈ s.events ∨ cycleOK s.currCycle e := by
            intro e he
            rcases phaseSet_memOK s.currCycle HEATING s4 e he with he | hok
            · exact mem4 e he
            · exact Or.inr hok
          rcases stepThen_cases _ _ _ h with ⟨s5, hs5, rfl⟩ | ⟨s5, hs5, h⟩
          · obtain ⟨m5, c5, p5, f5⟩ := heat_step_memOK env EXTENSION_TEMP hf hif s.currCycle
              HEATING _ _ _ hs5 (by simp [c4]) (by simp) (by simp [f4 rfl])
            refine ⟨?_, ?_⟩
            · intro r hr
              simp only [Sum.inl.injEq] at hr
              subst hr
              intro e he
              rcases failStop_mem s.currCycle s5 e he with he | hok
              · rcases m5 e he with he | hok
                · exact mem4p e he
                · exact Or.inr hok
              · exact Or.inr hok
            · intro r hr
              simp at hr
          · obtain ⟨m5, c5, p5, f5⟩ := heat_step_memOK env EXTENSION_TEMP hf hif s.currCycle
              HEATING _ _ _ hs5 (by simp [c4]) (by simp) (by simp [f4 rfl])
            have mem5 : ∀ e ∈ s5.events, e ∈ s.events ∨ cycleOK s.currCycle e := by
              intro e he
              rcases m5 e he with he | hok
              · exact mem4p e he
              · exact Or.inr hok
            have mem5p : ∀ e ∈ (phaseSet EXTENSION s5).events,
                e ∈ s.events ∨ cycleOK s.currCycle e := by
              intro e he
              rcases phaseSet_memOK s.currCycle EXTENSION s5 e he with he | hok
              · exact mem5 e he
              · exact Or.inr hok
            rw [show (phaseSet EXTENSION s5).currCycle = s.currCycle from by simp [c5]] at h
            rcases stepThen_cases _ _ _ h with ⟨s6, hs6, rfl⟩ | ⟨s6, hs6, h⟩
            · obtain ⟨m6, c6, p6, f6⟩ := hold_step_memOK env _ EXTENSION_TEMP df s.currCycle
                EXTENSION _ _ _ hs6 (by simp [c5]) (by simp) (by simp [f5 rfl])
                (by simp [cycleOK, DENATURATION, EXTENSION])
              refine ⟨?_, ?_⟩
              · intro r hr
                simp only [Sum.inl.injEq] at hr
                subst hr
                intro e he
                rcases failStop_mem s.currCycle s6 e he with he | hok
                · rcases m6 e he with he | hok
                  · exact mem5p e he
                  · exact Or.inr hok
                · exact Or.inr hok
              · intro r hr
                simp at hr
            · obtain ⟨m6, c6, p6, f6⟩ := hold_step_memOK env _ EXTENSION_TEMP df s.currCycle
                EXTENSION _ _ _ hs6 (by simp [c5]) (by simp) (by simp [f5 rfl])
                (by simp [cycleOK, DENATURATION, EXTENSION])
              injection h with h
              subst h
              refine ⟨?_, ?_⟩
              · intro r hr
                simp at hr
              · intro r hr
                simp only [Sum.inr.injEq] at hr
                subst hr
                refine ⟨c6, f6 rfl, ?_⟩
                intro e he
                rcases m6 e he with he | hok
                · exact mem5p e he
                · exact Or.inr hok

lemma cycleOK_runOK (i : Nat) (hi : i < NUM_CYCLES) (e : Ev) (h : cycleOK i e) : runOK e := by
  cases e with
  | heater b => simp [runOK]
  | fanOut b => simp [runOK]
  | timeDelay ms => simp [runOK]
  | phase q => simp [runOK]
  | holdStart c q d =>
    simp [cycleOK] at h
    obtain ⟨rfl, hd, he2⟩ := h
    simp [runOK]
    exact ⟨hi, hd, he2⟩
  | emitRec f c q fc =>
    simpa [cycleOK, runOK] using h

lemma runCycles_spec (env : Env) (hf hif df cf : Nat) : ∀ (fuel : Nat) (s s' : PCRState),
    s.faultCode = '0' →
    runCycles env hf hif df cf fuel s = some s' →
    (s'.currPhase = FAULT ∨ s'.faultCode = '0') ∧
    ∀ e ∈ s'.events, e ∈ s.events ∨ runOK e := by
  intro fuel
  induction fuel with
  | zero =>
    intro s s' hfc h
    unfold runCycles at h
    split at h
    · simp at h
    · injection h with h
      subst h
      exact ⟨Or.inr hfc, fun e he => Or.inl he⟩
  | succ f ih =>
    intro s s' hfc h
    unfold runCycles at h
    split at h
    case isFalse =>
      injection h with h
      subst h
      exact ⟨Or.inr hfc, fun e he => Or.inl he⟩
    case isTrue hlt =>
      split at h
      case h_1 => simp at h
      case h_2 sB heq =>
        injection h with h
        subst h
        have hmem := (cycleBody_spec env hf hif df cf s hfc _ heq).1 sB rfl
        constructor
        · left
          obtain ⟨sx, rfl⟩ := cycleBody_inl env hf hif df cf s sB heq
          exact failStop_currPhase sx
        · intro e he
          rcases hmem e he with he | hok
          · exact Or.inl he
          · exact Or.inr (cycleOK_runOK s.currCycle hlt e hok)
      case h_3 sC heq =>
        obtain ⟨cC, fC, memC⟩ := (cycleBody_spec env hf hif df cf s hfc _ heq).2 sC rfl
        have hrec := ih { sC with currCycle := sC.currCycle + 1 } s' (by simpa using fC) h
        refine ⟨hrec.1, ?_⟩
        intro e he
        rcases hrec.2 e he with he | hok
        · have he' : e ∈ sC.events := by simpa using he
          rcases memC e he' with he2 | hok2
          · exact Or.inl he2
          · exact Or.inr (cycleOK_runOK s.currCycle hlt e hok2)
        · exact Or.inr hok

lemma pcrFinish_mem (x : PCRState) :
    ∀ e ∈ (pcrFinish x).events, e ∈ x.events ∨
      ((∀ c p d, e ≠ Ev.holdStart c p d) ∧
       (∀ fr c p fc, e = Ev.emitRec fr c p fc → p ≠ FAULT →
         fc = x.faultCode ∧ x.currPhase ≠ FAULT)) := by
  intro e he
  unfold pcrFinish at he
  split at he
  case isTrue hph =>
    rw [logCall_true_events] at he
    simp at he
    rcases he with he | rfl | rfl | rfl
    · exact Or.inl he
    · right
      constructor
      · intro c p d hne
        simp at hne
      · intro fr c p fc hne
        simp at hne
    · right
      constructor
      · intro c p d hne
        simp at hne
      · intro fr c p fc hne
        simp at hne
    · right
      constructor
      · intro c p d hne
        simp at hne
      · intro fr c p fc hne
        simp at hne
        obtain ⟨-, -, hp, hfc⟩ := hne
        intro hpf
        refine ⟨hfc.symm, ?_⟩
        simpa using hph
  case isFalse hph =>
    rw [logCall_true_events] at he
    simp at he
    rcases he with he | rfl | rfl
    · exact Or.inl he
    · right
      constructor
      · intro c p d hne
        simp at hne
      · intro fr c p fc hne
        simp at hne
    · right
      constructor
      · intro c p d hne
        simp at hne
      · intro fr c p fc hne
        simp at hne
        obtain ⟨-, -, hp, hfc⟩ := hne
        intro hpf
        exact absurd (hp.symm.trans (by simpa using hph)) hpf

/-- C5: in every terminating runPCR run, every hold phase belongs to a valid
cycle index c < NUM_CYCLES; a denaturation hold uses INITIAL_DENATURE_TIME
exactly on cycle 0 and DENATURE_TIME otherwise, and an extension hold uses
FINAL_EXTENSION_TIME exactly on the last cycle (NUM_CYCLES - 1) and
EXTENSION_TIME otherwise. -/
theorem runPCR_first_last_durations (env : Env) (hf hif df cf fuel : Nat) (s s' : PCRState)
    (hev : s.events = []) (h : runPCR env hf hif df cf fuel s = some s') :
    ∀ c p d, Ev.holdStart c p d ∈ s'.events →
      c < NUM_CYCLES ∧
      (p = DENATURATION → d = if c = 0 then INITIAL_DENATURE_TIME else DENATURE_TIME) ∧
      (p = EXTENSION → d = if c < NUM_CYCLES - 1 then EXTENSION_TIME
        else FINAL_EXTENSION_TIME) := by
  unfold runPCR at h
  split at h
  · simp at h
  · rename_i s1 heq
    injection h with h
    subst h
    have hspec := runCycles_spec env hf hif df cf fuel _ _ (by simp) heq
    intro c p d hin
    rcases pcrFinish_mem s1 _ hin with hin1 | ⟨hno, -⟩
    · rcases hspec.2 _ hin1 with hin2 | hok
      · simp [hev] at hin2
      · simpa [runOK] using hok
    · exact absurd rfl (hno c p d)

/-- Witness for C5 on a terminating run (sensor failure aborts the run in its
first phase) from the initial state. -/
theorem runPCR_first_last_durations_witness :
    s0.events = [] ∧
    (runPCR (envConst 10) 1 1 1 1 4 s0 =
      some (resState (runPCR (envConst 10) 1 1 1 1 4 s0))) ∧
    (∀ c p d, Ev.holdStart c p d ∈ (resState (runPCR (envConst 10) 1 1 1 1 4 s0)).events →
      c < NUM_CYCLES ∧
      (p = DENATURATION → d = if c = 0 then INITIAL_DENATURE_TIME else DENATURE_TIME) ∧
      (p = EXTENSION → d = if c < NUM_CYCLES - 1 then EXTENSION_TIME
        else FINAL_EXTENSION_TIME)) :=
  ⟨rfl, rfl, runPCR_first_last_durations (envConst 10) 1 1 1 1 4 s0 _ rfl rfl⟩

/-- C6 counterexample: at the return of a failed RiseTo to the Cycle
Controller - an observable point named by the claim - the fault code is
already '2' (SensorFailure) while the current phase is still Heating, not
Fault, so the claimed equivalence between a non-None fault code and the
Fault phase is false as stated. -/
theorem fault_phase_equiv_counterexample :
    (heatUp (envConst 10) DENATURE_TEMP 1 1 (phaseSet HEATING s0)).map
        (fun r => (r.1, r.2.faultCode, r.2.currPhase)) = some (false, '2', HEATING) ∧
    HEATING ≠ FAULT := by
  constructor
  · rfl
  · decide

/-- C6 (amended): at every log emission of a terminating run, a record whose
phase is not Fault carries fault code '0' (None).  The converse direction of
the claim is false (a Fault-phase record can carry '0' when the entry sample
equals the setpoint), as is the claim at returns to the Cycle Controller
(the fault code becomes non-None there before the controller sets the Fault
phase). -/
theorem runPCR_nonfault_records_clear (env : Env) (hf hif df cf fuel : Nat) (s s' : PCRState)
    (hev : s.events = []) (h : runPCR env hf hif df cf fuel s = some s') :
    ∀ fr c p fc, Ev.emitRec fr c p fc ∈ s'.events → p ≠ FAULT → fc = '0' := by
  unfold runPCR at h
  split at h
  · simp at h
  · rename_i s1 heq
    injection h with h
    subst h
    have hspec := runCycles_spec env hf hif df cf fuel _ _ (by simp) heq
    intro fr c p fc hin hp
    rcases pcrFinish_mem s1 _ hin with hin1 | ⟨-, hrec⟩
    · rcases hspec.2 _ hin1 with hin2 | hok
      · simp [hev] at hin2
      · have hok' : p ≠ FAULT → fc = '0' := by simpa [runOK] using hok
        exact hok' hp
    · obtain ⟨hfc, hph⟩ := hrec fr c p fc rfl hp
      rcases hspec.1 with hf6 | hf0
      · exact absurd hf6 hph
      · exact hfc.trans hf0

/-- Witness for the amended C6 on the same terminating aborted run. -/
theorem runPCR_nonfault_records_clear_witness :
    s0.events = [] ∧
    (runPCR (envConst 10) 1 1 1 1 4 s0 =
      some (resState (runPCR (envConst 10) 1 1 1 1 4 s0))) ∧
    (∀ fr c p fc, Ev.emitRec fr c p fc ∈ (resState (runPCR (envConst 10) 1 1 1 1 4 s0)).events →
      p ≠ FAULT → fc = '0') :=
  ⟨rfl, rfl, runPCR_nonfault_records_clear (envConst 10) 1 1 1 1 4 s0 _ rfl rfl⟩

lemma sampleLog_events_cases (env : Env) (Z : PCRState) :
    (sampleLog env Z).events = Z.events ∨
    (sampleLog env Z).events =
      Z.events ++ [Ev.emitRec false Z.currCycle Z.currPhase Z.faultCode] := by
  unfold sampleLog logCall
  split
  · right
    simp [emitEv]
  · left
    rfl

/-- C8 (amended): in one iteration of HoldAt with no stop request, at most one
of heater and fan is commanded, a sample below the setpoint pulses only the
heater and a sample above setpoint plus the threshold margin pulses only the
fan, and in the dead band neither actuator is switched; in the pcrssv variant
the dead-band iteration still idles for the fixed hold-pulse interval before
the pause, while in the pcrfv variant the dead-band iteration performs only
the pause. -/
theorem holdAt_actuation (env : Env) (sp : ℚ) (s : PCRState)
    (hbp : (buttonPressed env s).1 = false) :
    (∃ s1 tl, holdBody env sp s = Sum.inr s1 ∧ s1.events = s.events ++ tl ∧
      ¬ (Ev.heater true ∈ tl ∧ Ev.fanOut true ∈ tl) ∧
      (env.temps s.readIdx < sp → actEvs tl = [Ev.heater true, Ev.heater false]) ∧
      (¬ env.temps s.readIdx < sp → sp + SETPOINT_THRESHOLD_TEMP < env.temps s.readIdx →
        actEvs tl = [Ev.fanOut true, Ev.fanOut false]) ∧
      (¬ env.temps s.readIdx < sp → ¬ sp + SETPOINT_THRESHOLD_TEMP < env.temps s.readIdx →
        actEvs tl = [] ∧
        delayEvs tl = [Ev.timeDelay HOLD_PULSE_DURATION, Ev.timeDelay HOLD_PAUSE_DURATION])) ∧
    (∃ s1 tl, holdBodyFV env sp s = Sum.inr s1 ∧ s1.events = s.events ++ tl ∧
      ¬ (Ev.heater true ∈ tl ∧ Ev.fanOut true ∈ tl) ∧
      (env.temps s.readIdx < sp → actEvs tl = [Ev.heater true, Ev.heater false]) ∧
      (¬ env.temps s.readIdx < sp → sp + SETPOINT_THRESHOLD_TEMP < env.temps s.readIdx →
        actEvs tl = [Ev.fanOut true, Ev.fanOut false]) ∧
      (¬ env.temps s.readIdx < sp → ¬ sp + SETPOINT_THRESHOLD_TEMP < env.temps s.readIdx →
        actEvs tl = [] ∧ delayEvs tl = [Ev.timeDelay HOLD_PAUSE_DURATION_FV])) := by
  have hct : (sampleLog env (buttonPressed env s).2).currTemp = env.temps s.readIdx := by simp
  constructor
  · unfold holdBody
    dsimp only
    rw [if_neg (by rw [hbp]; simp), hct]
    rcases sampleLog_events_cases env (buttonPressed env s).2 with hev | hev
    · simp at hev
      by_cases h1 : env.temps s.readIdx < sp
      · rw [if_pos h1]
        refine ⟨_, [Ev.heater true, Ev.timeDelay HOLD_PULSE_DURATION, Ev.heater false,
          Ev.timeDelay HOLD_PAUSE_DURATION], rfl, by simp [hev], by simp, by simp [actEvs],
          fun hc => absurd h1 hc, fun hc _ => absurd h1 hc⟩
      · by_cases h2 : sp + SETPOINT_THRESHOLD_TEMP < env.temps s.readIdx
        · rw [if_neg h1, if_pos h2]
          refine ⟨_, [Ev.fanOut true, Ev.timeDelay HOLD_PULSE_DURATION, Ev.fanOut false,
            Ev.timeDelay HOLD_PAUSE_DURATION], rfl, by simp [hev], by simp,
            fun hc => absurd hc h1, fun _ _ => by simp [actEvs],
            fun _ hc => absurd h2 hc⟩
        · rw [if_neg h1, if_neg h2]
          refine ⟨_, [Ev.timeDelay HOLD_PULSE_DURATION, Ev.timeDelay HOLD_PAUSE_DURATION],
            rfl, by simp [hev], by simp, fun hc => absurd hc h1,
            fun _ hc => absurd hc h2, fun _ _ => by simp [actEvs, delayEvs]⟩
    · simp at hev
      by_cases h1 : env.temps s.readIdx < sp
      · rw [if_pos h1]
        refine ⟨_, Ev.emitRec false (buttonPressed env s).2.currCycle
            (buttonPressed env s).2.currPhase (buttonPressed env s).2.faultCode ::
          [Ev.heater true, Ev.timeDelay HOLD_PULSE_DURATION, Ev.heater false,
            Ev.timeDelay HOLD_PAUSE_DURATION], rfl, by simp [hev], by simp,
          by simp [actEvs], fun hc => absurd h1 hc, fun hc _ => absurd h1 hc⟩
      · by_cases h2 : sp + SETPOINT_THRESHOLD_TEMP < env.temps s.readIdx
        · rw [if_neg h1, if_pos h2]
          refine ⟨_, Ev.emitRec false (buttonPressed env s).2.currCycle
              (buttonPressed env s).2.currPhase (buttonPressed env s).2.faultCode ::
            [Ev.fanOut true, Ev.timeDelay HOLD_PULSE_DURATION, Ev.fanOut false,
              Ev.timeDelay HOLD_PAUSE_DURATION], rfl, by simp [hev], by simp,
            fun hc => absurd hc h1, fun _ _ => by simp [actEvs],
            fun _ hc => absurd h2 hc⟩
        · rw [if_neg h1, if_neg h2]
          refine ⟨_, Ev.emitRec false (buttonPressed env s).2.currCycle
              (buttonPressed env s).2.currPhase (buttonPressed env s).2.faultCode ::
            [Ev.timeDelay HOLD_PULSE_DURATION, Ev.timeDelay HOLD_PAUSE_DURATION],
            rfl, by simp [hev], by simp, fun hc => absurd hc h1,
            fun _ hc => absurd hc h2, fun _ _ => by simp [actEvs, delayEvs]⟩
  · unfold holdBodyFV
    dsimp only
    rw [if_neg (by rw [hbp]; simp), hct]
    rcases sampleLog_events_cases env (buttonPressed env s).2 with hev | hev
    · simp at hev
      by_cases h1 : env.temps s.readIdx < sp
      · rw [if_pos h1]
        refine ⟨_, [Ev.heater true, Ev.timeDelay HOLD_PULSE_DURATION_FV, Ev.heater false,
          Ev.timeDelay HOLD_PAUSE_DURATION_FV], rfl, by simp [hev], by simp,
          by simp [actEvs], fun hc => absurd h1 hc, fun hc _ => absurd h1 hc⟩
      · by_cases h2 : sp + SETPOINT_THRESHOLD_TEMP < env.temps s.readIdx
        · rw [if_neg h1, if_pos h2]
          refine ⟨_, [Ev.fanOut true, Ev.timeDelay HOLD_PULSE_DURATION_FV, Ev.fanOut false,
            Ev.timeDelay HOLD_PAUSE_DURATION_FV], rfl, by simp [hev], by simp,
            fun hc => absurd hc h1, fun _ _ => by simp [actEvs],
            fun _ hc => absurd h2 hc⟩
        · rw [if_neg h1, if_neg h2]
          refine ⟨_, [Ev.timeDelay HOLD_PAUSE_DURATION_FV], rfl, by simp [hev], by simp,
            fun hc => absurd hc h1, fun _ hc => absurd hc h2,
            fun _ _ => by simp [actEvs, delayEvs]⟩
    · simp at hev
      by_cases h1 : env.temps s.readIdx < sp
      · rw [if_pos h1]
        refine ⟨_, Ev.emitRec false (buttonPressed env s).2.currCycle
            (buttonPressed env s).2.currPhase (buttonPressed env s).2.faultCode ::
          [Ev.heater true, Ev.timeDelay HOLD_PULSE_DURATION_FV, Ev.heater false,
            Ev.timeDelay HOLD_PAUSE_DURATION_FV], rfl, by simp [hev], by simp,
          by simp [actEvs], fun hc => absurd h1 hc, fun hc _ => absurd h1 hc⟩
      · by_cases h2 : sp + SETPOINT_THRESHOLD_TEMP < env.temps s.readIdx
        · rw [if_neg h1, if_pos h2]
          refine ⟨_, Ev.emitRec false (buttonPressed env s).2.currCycle
              (buttonPressed env s).2.currPhase (buttonPressed env s).2.faultCode ::
            [Ev.fanOut true, Ev.timeDelay HOLD_PULSE_DURATION_FV, Ev.fanOut false,
              Ev.timeDelay HOLD_PAUSE_DURATION_FV], rfl, by simp [hev], by simp,
            fun hc => absurd hc h1, fun _ _ => by simp [actEvs],
            fun _ hc => absurd h2 hc⟩
        · rw [if_neg h1, if_neg h2]
          refine ⟨_, Ev.emitRec false (buttonPressed env s).2.currCycle
              (buttonPressed env s).2.currPhase (buttonPressed env s).2.faultCode ::
            [Ev.timeDelay HOLD_PAUSE_DURATION_FV], rfl, by simp [hev], by simp,
            fun hc => absurd hc h1, fun _ hc => absurd hc h2,
            fun _ _ => by simp [actEvs, delayEvs]⟩

/-- C8 counterexample: in the pcrfv variant a dead-band iteration (sample
exactly at the setpoint) performs only the HOLD_PAUSE_DURATION_FV pause; it
does not idle for the hold-pulse interval before the pause as the claim
states for both variants. -/
theorem holdAt_dead_band_counterexample :
    (match holdBodyFV (envConst 60) 60 s0 with
     | Sum.inr s1 => delayEvs (s1.events.drop s0.events.length)
     | Sum.inl _ => []) = [Ev.timeDelay HOLD_PAUSE_DURATION_FV] ∧
    [Ev.timeDelay HOLD_PAUSE_DURATION_FV] ≠
      [Ev.timeDelay HOLD_PULSE_DURATION_FV, Ev.timeDelay HOLD_PAUSE_DURATION_FV] := by
  have hbp : ¬ ((buttonPressed (envConst 60) s0).1 = true) := by decide
  have hct : (sampleLog (envConst 60) (buttonPressed (envConst 60) s0).2).currTemp = 60 := by
    simp [envConst]
  have hev : (sampleLog (envConst 60) (buttonPressed (envConst 60) s0).2).events = [] := by decide
  simp [s0] at hev
  constructor
  · unfold holdBodyFV
    dsimp only
    rw [if_neg hbp, if_neg (by rw [hct]; norm_num),
      if_neg (by rw [hct]; norm_num [SETPOINT_THRESHOLD_TEMP])]
    simp [delayEvs, hev, s0]
  · decide

/-- Witness for the amended C8 at setpoint 60 with a 60-degree sample
(pcrssv dead band) and the button pin held HIGH. -/
theorem holdAt_actuation_witness :
    ((buttonPressed (envConst 60) s0).1 = false) ∧
    ((∃ s1 tl, holdBody (envConst 60) 60 s0 = Sum.inr s1 ∧ s1.events = s0.events ++ tl ∧
      ¬ (Ev.heater true ∈ tl ∧ Ev.fanOut true ∈ tl) ∧
      ((envConst 60).temps s0.readIdx < 60 → actEvs tl = [Ev.heater true, Ev.heater false]) ∧
      (¬ (envConst 60).temps s0.readIdx < 60 →
        60 + SETPOINT_THRESHOLD_TEMP < (envConst 60).temps s0.readIdx →
        actEvs tl = [Ev.fanOut true, Ev.fanOut false]) ∧
      (¬ (envConst 60).temps s0.readIdx < 60 →
        ¬ 60 + SETPOINT_THRESHOLD_TEMP < (envConst 60).temps s0.readIdx →
        actEvs tl = [] ∧
        delayEvs tl = [Ev.timeDelay HOLD_PULSE_DURATION, Ev.timeDelay HOLD_PAUSE_DURATION])) ∧
     (∃ s1 tl, holdBodyFV (envConst 60) 60 s0 = Sum.inr s1 ∧ s1.events = s0.events ++ tl ∧
      ¬ (Ev.heater true ∈ tl ∧ Ev.fanOut true ∈ tl) ∧
      ((envConst 60).temps s0.readIdx < 60 → actEvs tl = [Ev.heater true, Ev.heater false]) ∧
      (¬ (envConst 60).temps s0.readIdx < 60 →
        60 + SETPOINT_THRESHOLD_TEMP < (envConst 60).temps s0.readIdx →
        actEvs tl = [Ev.fanOut true, Ev.fanOut false]) ∧
      (¬ (envConst 60).temps s0.readIdx < 60 →
        ¬ 60 + SETPOINT_THRESHOLD_TEMP < (envConst 60).temps s0.readIdx →
        actEvs tl = [] ∧ delayEvs tl = [Ev.timeDelay HOLD_PAUSE_DURATION_FV]))) :=
  ⟨by decide, holdAt_actuation (envConst 60) 60 s0 (by decide)⟩
